import Mathlib

/-!
Shallow embedding of the interactive core of the cny-motion-detector
repository, together with theorems settling the frozen claims about it.

Components embedded (from the JavaScript source):
* `src/js/gestureDetector.js` — gesture state machine (finger counting,
  FIST/OPEN classification, trigger cooldown, debounced selection signal);
* `src/js/scrollManager.js` and the manager-facing part of
  `src/js/fortuneScroll.js` — scroll selection state machine;
* `src/js/textToPoints.js` — point-cloud jitter;
* the FireworksSystem class (second section of `src/unnamed/part_001`) —
  pooled particle engine.

Modelling conventions:
* JavaScript numbers are modelled as `ℚ` (coordinates, durations) or as
  `ℤ`/`ℕ` (timestamps in milliseconds, counters).  No claim in scope
  depends on floating-point rounding.
* `Math.random()`, `Math.sin`, `Math.cos`, `Math.sqrt` and `Math.PI` are
  injected as oracles (`Env`, or an explicit stream `ℕ → ℚ`): the code
  consumes their values opaquely and no claim depends on the exact values.
* Code that can throw (reading a property of `undefined` after an
  out-of-range index access) is modelled in the `Except Unit` monad.
* Pure rendering (canvas drawing, Three.js meshes, WebGL buffers) is out
  of scope per the spec; only the landmark/field accesses that can throw
  are retained from `drawHandSkeleton`.
-/

namespace CNY

/-! ## Gesture detector (src/js/gestureDetector.js) -/

/-- Gesture state strings used by the detector. -/
inductive GState where
  | FIST
  | OPEN
  | UNKNOWN
deriving DecidableEq, Repr

/-- A single hand landmark; the detector reads only the x and y fields. -/
structure Landmark where
  x : ℚ
  y : ℚ
deriving DecidableEq, Repr

/-- CONFIG.GESTURE.FIST_THRESHOLD (live config variant in src/js/config.js). -/
def FIST_THRESHOLD : ℕ := 4

/-- CONFIG.GESTURE.COOLDOWN_MS. -/
def COOLDOWN_MS : ℤ := 1000

/-- this.fingerCountDebounceMs = 500 from the GestureDetector constructor. -/
def fingerCountDebounceMs : ℤ := 500

/-- Access landmarks[i] followed by a property read: in JavaScript an
out-of-range index yields undefined and the property read throws. -/
def getLm (lms : List Landmark) (i : ℕ) : Except Unit Landmark :=
  match lms.get? i with
  | some l => Except.ok l
  | none => Except.error ()

/-- The MediaPipe hand connection list from drawHandSkeleton. -/
def handConnections : List (ℕ × ℕ) :=
  [(0, 1), (1, 2), (2, 3), (3, 4),
   (0, 5), (5, 6), (6, 7), (7, 8),
   (0, 9), (9, 10), (10, 11), (11, 12),
   (0, 13), (13, 14), (14, 15), (15, 16),
   (0, 17), (17, 18), (18, 19), (19, 20),
   (5, 9), (9, 13), (13, 17)]

/-- The two landmark reads of one drawHandSkeleton connection. -/
def accessPair (lms : List Landmark) (c : ℕ × ℕ) : Except Unit Unit := do
  let _ ← getLm lms c.1
  let _ ← getLm lms c.2
  pure ()

/-- The landmark reads performed by drawHandSkeleton (the only part of that
method that can affect the modelled state, by throwing on a short landmark
list); the actual canvas drawing is external rendering. -/
def drawHandSkeletonAccesses (lms : List Landmark) : Except Unit Unit :=
  handConnections.foldlM (fun _ c => accessPair lms c) ()

/-- Finger [tip, pip] index pairs for the four non-thumb fingers. -/
def fingerPairs : List (ℕ × ℕ) := [(8, 6), (12, 10), (16, 14), (20, 18)]

/-- One iteration of the countExtendedFingers finger loop: a finger counts
as extended when its tip is above the middle joint by more than 0.02. -/
def fingerStep (lms : List Landmark) (acc : ℕ) (pr : ℕ × ℕ) : Except Unit ℕ := do
  let tip ← getLm lms pr.1
  let pip ← getLm lms pr.2
  pure (if tip.y < pip.y - 1/50 then acc + 1 else acc)

/-- countExtendedFingers: thumb by horizontal displacement (threshold 0.05),
other fingers via fingerStep. -/
def countExtendedFingers (lms : List Landmark) : Except Unit ℕ := do
  let thumbTip ← getLm lms 4
  let thumbPip ← getLm lms 3
  let c0 : ℕ := if 1/20 < |thumbTip.x - thumbPip.x| then 1 else 0
  fingerPairs.foldlM (fingerStep lms) c0

/-- Mutable state of the GestureDetector relevant to gesture processing. -/
structure GDState where
  currentState : GState
  previousState : GState
  lastTriggerTime : ℤ
  currentFingerCount : ℕ
  previousFingerCount : ℕ
  lastFingerCountChangeTime : ℤ
deriving DecidableEq, Repr

/-- Constructor state of the GestureDetector. -/
def initGDState : GDState :=
  { currentState := GState.UNKNOWN
    previousState := GState.UNKNOWN
    lastTriggerTime := 0
    currentFingerCount := 0
    previousFingerCount := 0
    lastFingerCountChangeTime := 0 }

/-- The validFingerCount computation in updateFingerCount: only 1, 2 or 3
extended fingers are a valid selection, everything else maps to 0. -/
def clampValidFingerCount (c : ℕ) : ℕ :=
  if 1 ≤ c ∧ c ≤ 3 then c else 0

/-- updateFingerCount: returns the updated state and the scroll index passed
to onFingerCountChange, when that callback fires. -/
def updateFingerCount (now : ℤ) (fingerCount : ℕ) (s : GDState) :
    GDState × Option ℕ :=
  let validFingerCount := clampValidFingerCount fingerCount
  if validFingerCount ≠ s.previousFingerCount then
    if fingerCountDebounceMs < now - s.lastFingerCountChangeTime then
      ({ s with
          previousFingerCount := validFingerCount
          currentFingerCount := validFingerCount
          lastFingerCountChangeTime := now },
        if 0 < validFingerCount then some (validFingerCount - 1) else none)
    else (s, none)
  else (s, none)

/-- Events pushed to observers during one onResults call. -/
structure GDEvents where
  triggered : Bool
  fingerEvent : Option ℕ
  fistEvent : Bool
  stateChange : Option GState
deriving DecidableEq, Repr

/-- No events. -/
def noEvents : GDEvents :=
  { triggered := false, fingerEvent := none, fistEvent := false
    stateChange := none }

/-- Gesture classification from the extended-finger count. -/
def classifyGesture (c : ℕ) : GState :=
  if FIST_THRESHOLD ≤ c then GState.OPEN else GState.FIST

/-- The no-hand branch of onResults. -/
def noHand (s : GDState) : GDState :=
  { s with currentState := GState.UNKNOWN, currentFingerCount := 0 }

/-- The hand-detected part of onResults after the landmark accesses have
succeeded and produced the extended-finger count. -/
def processHand (now : ℤ) (extendedFingers : ℕ) (s : GDState) :
    GDState × GDEvents :=
  let r := updateFingerCount now extendedFingers s
  let s1 := r.1
  let fingerEv := r.2
  let newState := classifyGesture extendedFingers
  let s2 := { s1 with previousState := s1.currentState, currentState := newState }
  let triggered : Bool :=
    decide (s2.previousState = GState.FIST ∧ s2.currentState = GState.OPEN ∧
      COOLDOWN_MS < now - s2.lastTriggerTime)
  let s3 := if triggered then { s2 with lastTriggerTime := now } else s2
  let fistEv : Bool :=
    decide (s3.currentState = GState.FIST ∧ s3.previousState ≠ GState.FIST)
  let stateChange :=
    if s3.previousState ≠ s3.currentState then some s3.currentState else none
  (s3, { triggered := triggered, fingerEvent := fingerEv, fistEvent := fistEv
         stateChange := stateChange })

/-- onResults: `hands` models results.multiHandLandmarks, with a missing
field collapsed to the empty list; `now` is the Date.now() reading of this
callback.  Throws (Except.error) exactly where the JavaScript would throw on
a malformed landmark list. -/
def onResults (now : ℤ) (hands : List (List Landmark)) (s : GDState) :
    Except Unit (GDState × GDEvents) :=
  match hands.head? with
  | some lms => do
      let _ ← drawHandSkeletonAccesses lms
      let extendedFingers ← countExtendedFingers lms
      pure (processHand now extendedFingers s)
  | none => Except.ok (noHand s, noEvents)

/-- One frame of a run: an erroring frame leaves the state unchanged (the
JavaScript throw happens before any state mutation) and fires no trigger;
the recorded value is the timestamp of a fired trigger. -/
def stepGD (s : GDState) (input : ℤ × List (List Landmark)) :
    GDState × Option ℤ :=
  match onResults input.1 input.2 s with
  | Except.ok (s', ev) => (s', if ev.triggered then some input.1 else none)
  | Except.error _ => (s, none)

/-- Process a sequence of frames, collecting the timestamps of fired
triggers in order. -/
def runGD : GDState → List (ℤ × List (List Landmark)) → GDState × List ℤ
  | s, [] => (s, [])
  | s, input :: rest =>
      let step := stepGD s input
      let tail := runGD step.1 rest
      (tail.1, match step.2 with
               | some t => t :: tail.2
               | none => tail.2)

/-! ## Fortune scrolls and their manager (src/js/fortuneScroll.js, src/js/scrollManager.js) -/

/-- Per-item state machine strings of FortuneScroll. -/
inductive ScrollState where
  | IDLE
  | HOVERING
  | SELECTED
  | UNROLLING
  | DISPLAYED
  | FADING_OUT
  | HIDDEN
deriving DecidableEq, Repr

/-- Aggregate state strings of ScrollManager. -/
inductive MgrState where
  | IDLE
  | SELECTING
  | UNROLLING
  | DISPLAYED
deriving DecidableEq, Repr

/-- Scalar state of one FortuneScroll (meshes and the scene are external
rendering; the payload phrase and layout position do not influence the
selection logic and are omitted). -/
structure FortuneScroll where
  scrollIndex : ℕ
  state : ScrollState
  isAnimating : Bool
  hoverIntensity : ℚ
  isSelected : Bool
  selectionPulseTime : ℚ
  fadeProgress : ℚ
  unrollProgress : ℚ
  textFadeProgress : ℚ
  animationProgress : ℚ
deriving DecidableEq, Repr

/-- FortuneScroll.setHovering: only acts from IDLE or HOVERING. -/
def FortuneScroll.setHovering (sc : FortuneScroll) (isHovering : Bool) :
    FortuneScroll :=
  if sc.state ≠ ScrollState.IDLE ∧ sc.state ≠ ScrollState.HOVERING then sc
  else if isHovering then
    { sc with state := ScrollState.HOVERING, hoverIntensity := 1 }
  else
    { sc with state := ScrollState.IDLE, hoverIntensity := 0 }

/-- A scroll as produced by the constructor followed by setIdle (the path
taken by ScrollManager.initialize). -/
def mkIdleScroll (i : ℕ) : FortuneScroll :=
  { scrollIndex := i
    state := ScrollState.IDLE
    isAnimating := false
    hoverIntensity := 0
    isSelected := false
    selectionPulseTime := 0
    fadeProgress := 0
    unrollProgress := 0
    textFadeProgress := 0
    animationProgress := 0 }

/-- State of the ScrollManager. -/
structure ScrollManager where
  scrolls : List FortuneScroll
  selectedScrollIndex : Option ℤ
  isAnimating : Bool
  state : MgrState
deriving DecidableEq, Repr

/-- The manager right after initialize(): three idle scrolls (the drawn
fortunes and layout positions are external to the selection logic). -/
def managerInit : ScrollManager :=
  { scrolls := [mkIdleScroll 0, mkIdleScroll 1, mkIdleScroll 2]
    selectedScrollIndex := none
    isAnimating := false
    state := MgrState.IDLE }

/-- The scrolls.forEach loop of selectScroll: item i gets
setHovering(i === index). -/
def applyHover (idx : ℤ) : ℕ → List FortuneScroll → List FortuneScroll
  | _, [] => []
  | i, sc :: rest =>
      sc.setHovering (decide ((i : ℤ) = idx)) :: applyHover idx (i + 1) rest

/-- ScrollManager.selectScroll. -/
def selectScroll (idx : ℤ) (m : ScrollManager) : ScrollManager :=
  if m.isAnimating = true ∨ m.state ≠ MgrState.IDLE then m
  else if idx < 0 ∨ (m.scrolls.length : ℤ) ≤ idx then m
  else
    { m with
        scrolls := applyHover idx 0 m.scrolls
        selectedScrollIndex := some idx
        state := MgrState.SELECTING }

/-! ## Text to points (src/js/textToPoints.js) -/

/-- A sampled point: position plus a palette color (hex value). -/
structure TPoint where
  x : ℚ
  y : ℚ
  z : ℚ
  color : ℕ
deriving DecidableEq, Repr

/-- The jitterPoints map body for one point: three fresh Math.random()
draws (stream positions k, k+1, k+2), consumed for x, y, z in order. -/
def jitterPoint (rand : ℕ → ℚ) (amount : ℚ) (k : ℕ) (p : TPoint) : TPoint :=
  { p with
      x := p.x + (rand k - 1/2) * amount
      y := p.y + (rand (k + 1) - 1/2) * amount
      z := p.z + (rand (k + 2) - 1/2) * amount }

/-- The points.map of jitterPoints, threading the position in the random
stream. -/
def jitterPointsAux (rand : ℕ → ℚ) (amount : ℚ) : ℕ → List TPoint → List TPoint
  | _, [] => []
  | k, p :: rest => jitterPoint rand amount k p :: jitterPointsAux rand amount (k + 3) rest

/-- TextToPoints.jitterPoints (default amount is 5): builds a fresh array of
fresh point records via map and object spread; the input is only read. -/
def jitterPoints (rand : ℕ → ℚ) (points : List TPoint) (amount : ℚ) :
    List TPoint :=
  jitterPointsAux rand amount 0 points

/-! ## Fireworks system (FireworksSystem class in src/unnamed/part_001) -/

/-- Three.js vector, componentwise over ℚ. -/
structure Vec3 where
  x : ℚ
  y : ℚ
  z : ℚ
deriving DecidableEq, Repr

/-- Componentwise sum. -/
def Vec3.add (a b : Vec3) : Vec3 := ⟨a.x + b.x, a.y + b.y, a.z + b.z⟩

/-- Componentwise difference. -/
def Vec3.sub (a b : Vec3) : Vec3 := ⟨a.x - b.x, a.y - b.y, a.z - b.z⟩

/-- Scalar multiple. -/
def Vec3.smul (s : ℚ) (v : Vec3) : Vec3 := ⟨s * v.x, s * v.y, s * v.z⟩

/-- Vector3.lerpVectors(a, b, t) = a + (b - a) * t. -/
def Vec3.lerp (a b : Vec3) (t : ℚ) : Vec3 := Vec3.add a (Vec3.smul t (Vec3.sub b a))

/-- Particle phase strings (the converge phase named in the source comment
is never assigned). -/
inductive Phase where
  | inactive
  | launch
  | explode
  | fade
deriving DecidableEq, Repr

/-- One pooled particle record. -/
structure Particle where
  position : Vec3
  velocity : Vec3
  target : Vec3
  color : ℕ
  life : ℚ
  maxLife : ℚ
  size : ℚ
  phase : Phase
  alpha : ℚ
  isActive : Bool
  targetZ : Option ℚ
deriving DecidableEq, Repr

/-- CONFIG.FIREWORKS and CONFIG.PERFORMANCE constants (live variant). -/
def PARTICLE_POOL_SIZE : ℕ := 12000

/-- CONFIG.FIREWORKS.LAUNCH_SPEED. -/
def LAUNCH_SPEED : ℚ := 15

/-- CONFIG.FIREWORKS.LAUNCH_SPREAD. -/
def LAUNCH_SPREAD : ℚ := 100

/-- CONFIG.FIREWORKS.RISE_TIME (1.5 s). -/
def RISE_TIME : ℚ := 3/2

/-- CONFIG.FIREWORKS.EXPLOSION_PARTICLES. -/
def EXPLOSION_PARTICLES : ℕ := 30

/-- CONFIG.FIREWORKS.FADE_TIME (1.0 s in the live config variant). -/
def FADE_TIME : ℚ := 1

/-- CONFIG.FIREWORKS.GRAVITY (0.98). -/
def GRAVITY : ℚ := 49/50

/-- CONFIG.FIREWORKS.DRAG (0.99). -/
def DRAG : ℚ := 99/100

/-- CONFIG.FIREWORKS.PARTICLE_SIZE. -/
def PARTICLE_SIZE : ℚ := 4

/-- Oracles for the numeric primitives the engine consumes opaquely:
a Math.random() stream (indexed by a cursor threaded through the state)
and stand-ins for Math.sin, Math.cos, Math.sqrt and Math.PI.  No claim in
scope depends on their values. -/
structure Env where
  rand : ℕ → ℚ
  sinq : ℚ → ℚ
  cosq : ℚ → ℚ
  sqrtq : ℚ → ℚ
  piq : ℚ

/-- A pool slot as created by createParticlePool (new THREE.Color() is
white, 0xFFFFFF; the targetZ property does not exist yet). -/
def initParticle : Particle :=
  { position := ⟨0, 0, 0⟩
    velocity := ⟨0, 0, 0⟩
    target := ⟨0, 0, 0⟩
    color := 0xFFFFFF
    life := 0
    maxLife := 0
    size := PARTICLE_SIZE
    phase := Phase.inactive
    alpha := 0
    isActive := false
    targetZ := none }

/-- createParticlePool, parametric in the pool size read from CONFIG. -/
def createParticlePool (poolSize : ℕ) : List Particle :=
  List.replicate poolSize initParticle

/-- State of the FireworksSystem.  activeParticles holds pool indices: in
the source it is an array of references into pool slots.  rngCursor threads
the Math.random() stream. -/
structure FireworksSystem where
  particlePool : List Particle
  activeParticles : List ℕ
  isAnimating : Bool
  targetPoints : List TPoint
  rngCursor : ℕ
deriving DecidableEq, Repr

/-- Constructor state, parametric in the pool size. -/
def initSystem (poolSize : ℕ) : FireworksSystem :=
  { particlePool := createParticlePool poolSize
    activeParticles := []
    isAnimating := false
    targetPoints := []
    rngCursor := 0 }

/-- getParticleFromPool: index of the first inactive pool slot. -/
def getParticleFromPool (pool : List Particle) : Option ℕ :=
  pool.findIdx? (fun p => !p.isActive)

/-- Read a pool slot; out-of-range cannot occur for indices produced by
the allocator, the default keeps the function total. -/
def poolGet (pool : List Particle) (i : ℕ) : Particle :=
  pool.getD i initParticle

/-- One Math.random() call. -/
def drawRand (env : Env) (s : FireworksSystem) : ℚ × FireworksSystem :=
  (env.rand s.rngCursor, { s with rngCursor := s.rngCursor + 1 })

/-- The launch loop body once a free slot i has been found: initialize the
slot as a rising particle aimed at target t.  Three.js normalize divides by
the length or by 1 when the length is zero. -/
def initLaunchParticle (env : Env) (t : TPoint) (i : ℕ) (s : FireworksSystem) :
    FireworksSystem :=
  let d1 := drawRand env s
  let d2 := drawRand env d1.2
  let d3 := drawRand env d2.2
  let launchX := (d1.1 - 1/2) * LAUNCH_SPREAD
  let launchY : ℚ := -400
  let launchZ := t.z + (d2.1 - 1/2) * 200
  let ppos : Vec3 := ⟨launchX, launchY, launchZ⟩
  let ptarget : Vec3 := ⟨t.x, t.y, t.z⟩
  let d := Vec3.sub ptarget ppos
  let len := env.sqrtq (d.x * d.x + d.y * d.y + d.z * d.z)
  let dir := Vec3.smul (1 / (if len = 0 then 1 else len)) d
  let speed := LAUNCH_SPEED + d3.1 * 5
  let p : Particle :=
    { position := ppos
      velocity := Vec3.smul speed dir
      target := ptarget
      color := t.color
      life := 0
      maxLife := RISE_TIME
      size := PARTICLE_SIZE
      phase := Phase.launch
      alpha := 1
      isActive := true
      targetZ := some t.z }
  { d3.2 with
      particlePool := d3.2.particlePool.set i p
      activeParticles := d3.2.activeParticles ++ [i] }

/-- The for-loop of launch over the target points; a pool miss breaks out
of the whole loop. -/
def launchLoop (env : Env) : List TPoint → FireworksSystem → FireworksSystem
  | [], s => s
  | t :: rest, s =>
      match getParticleFromPool s.particlePool with
      | none => s
      | some i => launchLoop env rest (initLaunchParticle env t i s)

/-- Result channel of launch: the busy log or the launched-count log. -/
inductive LaunchResult where
  | busy
  | launched (count : ℕ)
deriving DecidableEq, Repr

/-- FireworksSystem.launch.  The pointsPerParticle local of the source is
computed but never used; createParticleMesh is external rendering. -/
def FireworksSystem.launch (env : Env) (targetPoints : List TPoint)
    (s : FireworksSystem) : FireworksSystem × LaunchResult :=
  if s.isAnimating = true then (s, LaunchResult.busy)
  else
    let s0 := { s with
        targetPoints := targetPoints
        isAnimating := true
        activeParticles := [] }
    let s1 := launchLoop env targetPoints s0
    (s1, LaunchResult.launched s1.activeParticles.length)

/-- easeOutCubic. -/
def easeOutCubic (t : ℚ) : ℚ := 1 - (1 - t) ^ 3

/-- lifeRatio = min(life / maxLife, 1).  In JavaScript a zero maxLife with
positive life gives min(Infinity, 1) = 1; particles reached by update always
carry a positive maxLife (RISE_TIME, 0.3 or FADE_TIME), so the zero branch
only keeps the definition total. -/
def lifeFrac (life maxLife : ℚ) : ℚ :=
  if maxLife = 0 then 1 else min (life / maxLife) 1

/-- The createExplosion loop body once a free slot i has been found: the
slot becomes a fade-phase burst particle around centerParticle.  The target
and targetZ fields are not assigned and keep their previous values. -/
def initExplosionParticle (env : Env) (center : Particle) (i : ℕ)
    (s : FireworksSystem) : FireworksSystem :=
  let d1 := drawRand env s
  let d2 := drawRand env d1.2
  let d3 := drawRand env d2.2
  let theta := d1.1 * env.piq * 2
  let phi := d2.1 * env.piq
  let speed := d3.1 * 3 + 2
  let vel : Vec3 :=
    ⟨env.sinq phi * env.cosq theta * speed,
     env.sinq phi * env.sinq theta * speed,
     env.cosq phi * speed⟩
  let old := poolGet d3.2.particlePool i
  let p : Particle :=
    { old with
        position := center.position
        velocity := vel
        color := center.color
        life := 0
        maxLife := FADE_TIME
        phase := Phase.fade
        alpha := 1
        isActive := true
        size := PARTICLE_SIZE * (7/10) }
  { d3.2 with
      particlePool := d3.2.particlePool.set i p
      activeParticles := d3.2.activeParticles ++ [i] }

/-- createExplosion: up to EXPLOSION_PARTICLES burst particles, truncated
when the pool is exhausted. -/
def createExplosion (env : Env) (center : Particle) :
    ℕ → FireworksSystem → FireworksSystem
  | 0, s => s
  | k + 1, s =>
      match getParticleFromPool s.particlePool with
      | none => s
      | some i => createExplosion env center k (initExplosionParticle env center i s)

/-- Overwrite pool slot i (the this-particle mutation of one forEach
iteration: the pool slot and the reference the loop holds are the same
object in the source). -/
def withSlot (s : FireworksSystem) (i : ℕ) (p : Particle) : FireworksSystem :=
  { s with particlePool := s.particlePool.set i p }

/-- The particle.life += deltaTime mutation at the start of a visit. -/
def lifeAdvanced (s : FireworksSystem) (i : ℕ) (dt : ℚ) : Particle :=
  { poolGet s.particlePool i with life := (poolGet s.particlePool i).life + dt }

/-- updateLaunchPhase, acting on pool slot i whose particle p already has
its life advanced; on completion the particle snaps to its target, enters
the explode phase and spawns the burst. -/
def updateLaunchPhase (env : Env) (dt lr : ℚ) (i : ℕ) (p : Particle)
    (s : FireworksSystem) : FireworksSystem :=
  if 1 ≤ lr then
    let p1 := { p with phase := Phase.explode, life := 0, maxLife := 3/10,
                       position := p.target }
    createExplosion env p1 EXPLOSION_PARTICLES (withSlot s i p1)
  else
    let t := easeOutCubic lr
    let base := Vec3.sub p.position (Vec3.smul dt p.velocity)
    let pos1 := Vec3.lerp base p.target (t * (1/10))
    let vel1 : Vec3 := ⟨p.velocity.x, p.velocity.y - (49/5) * dt * (1/2), p.velocity.z⟩
    let pos2 := Vec3.add pos1 (Vec3.smul dt vel1)
    withSlot s i ({ p with position := pos2, velocity := vel1 })

/-- updateExplodePhase: a brief bright flash, then hand over to fade. -/
def updateExplodePhase (env : Env) (lr : ℚ) (i : ℕ) (p : Particle)
    (s : FireworksSystem) : FireworksSystem :=
  if 1 ≤ lr then
    withSlot s i ({ p with phase := Phase.fade, life := 0, maxLife := FADE_TIME })
  else
    let p1 := { p with size := PARTICLE_SIZE * (1 + env.sinq (lr * env.piq) * 2),
                       alpha := 1 }
    withSlot s i p1

/-- updateFadePhase: linear alpha decay, gravity and drag, deactivation on
completion. -/
def updateFadePhase (dt lr : ℚ) (i : ℕ) (p : Particle)
    (s : FireworksSystem) : FireworksSystem :=
  if 1 ≤ lr then
    withSlot s i ({ p with isActive := false, alpha := 0 })
  else
    let vel1 : Vec3 := ⟨p.velocity.x, p.velocity.y - (49/5) * dt * GRAVITY, p.velocity.z⟩
    let vel2 := Vec3.smul DRAG vel1
    let pos := Vec3.add p.position (Vec3.smul dt vel2)
    let p1 := { p with alpha := 1 - lr, velocity := vel2, position := pos,
                       size := PARTICLE_SIZE * (1 - lr * (1/2)) }
    withSlot s i p1

/-- One iteration of the update forEach on pool index i: skip inactive
slots, otherwise advance life and dispatch on the phase.  The returned Bool
is the isActive reading at the end of the iteration, which feeds the
activeCount tally; the buffer-array writes and the depth-based dimming only
feed the renderer and are not state. -/
def visitParticle (env : Env) (dt : ℚ) (i : ℕ) (s : FireworksSystem) :
    FireworksSystem × Bool :=
  if (poolGet s.particlePool i).isActive = false then (s, false)
  else
    let p := lifeAdvanced s i dt
    let lr := lifeFrac p.life p.maxLife
    let s1 :=
      match p.phase with
      | Phase.launch => updateLaunchPhase env dt lr i p (withSlot s i p)
      | Phase.explode => updateExplodePhase env lr i p (withSlot s i p)
      | Phase.fade => updateFadePhase dt lr i p (withSlot s i p)
      | Phase.inactive => withSlot s i p
    (s1, (poolGet s1.particlePool i).isActive)

/-- The update forEach over a snapshot of activeParticles (a JavaScript
forEach does not visit elements appended during the iteration), carrying
the activeCount tally. -/
def updateLoop (env : Env) (dt : ℚ) :
    List ℕ → FireworksSystem → ℕ → FireworksSystem × ℕ
  | [], s, cnt => (s, cnt)
  | i :: rest, s, cnt =>
      let v := visitParticle env dt i s
      updateLoop env dt rest v.1 (if v.2 then cnt + 1 else cnt)

/-- FireworksSystem.update. -/
def FireworksSystem.update (env : Env) (dt : ℚ) (s : FireworksSystem) :
    FireworksSystem :=
  if s.isAnimating = false ∨ s.activeParticles = [] then s
  else
    let r := updateLoop env dt s.activeParticles s 0
    if r.2 = 0 then { r.1 with isAnimating := false } else r.1

/-- FireworksSystem.isRunning. -/
def FireworksSystem.isRunning (s : FireworksSystem) : Bool := s.isAnimating

/-- The reset forEach: deactivate every referenced slot. -/
def deactivateAll : List ℕ → List Particle → List Particle
  | [], pool => pool
  | i :: rest, pool =>
      deactivateAll rest (pool.set i ({ poolGet pool i with isActive := false, alpha := 0 }))

/-- FireworksSystem.reset. -/
def FireworksSystem.reset (s : FireworksSystem) : FireworksSystem :=
  { s with
      isAnimating := false
      particlePool := deactivateAll s.activeParticles s.particlePool
      activeParticles := [] }

/-- The externally reachable operations on the engine. -/
inductive FwOp where
  | launch (pts : List TPoint)
  | update (dt : ℚ)
  | reset

/-- Apply one operation (the launch log value is discarded). -/
def applyFwOp (env : Env) (s : FireworksSystem) : FwOp → FireworksSystem
  | FwOp.launch pts => (FireworksSystem.launch env pts s).1
  | FwOp.update dt => FireworksSystem.update env dt s
  | FwOp.reset => FireworksSystem.reset s

/-- Run a sequence of operations from the constructor state. -/
def runFw (env : Env) (poolSize : ℕ) (ops : List FwOp) : FireworksSystem :=
  ops.foldl (applyFwOp env) (initSystem poolSize)

/-- Number of active particles: the pool slots currently in use. -/
def countActive (s : FireworksSystem) : ℕ :=
  s.particlePool.countP (fun p => p.isActive)

/-- A fixed oracle assignment for concrete evaluations. -/
def env0 : Env :=
  { rand := fun _ => 0
    sinq := fun _ => 0
    cosq := fun _ => 0
    sqrtq := fun _ => 0
    piq := 0 }

/-- Proof-side invariant: every active pool slot is referenced by the
active list (the source keeps activeParticles as the list of references to
the pool slots in use). -/
def ActiveListed (s : FireworksSystem) : Prop :=
  ∀ i : ℕ, (poolGet s.particlePool i).isActive = true → i ∈ s.activeParticles

/-- Proof-side invariant: an engine whose isAnimating flag is down has no
active pool slot. -/
def IdleClean (s : FireworksSystem) : Prop :=
  s.isAnimating = false → ∀ i : ℕ, (poolGet s.particlePool i).isActive = false

/-! ## Concrete instances used in closed theorems -/

/-- A 21-landmark frame with every finger extended (landmark i at (i, -i)):
the thumb tip and joint differ by 1 horizontally and every fingertip is well
above its middle joint. -/
def openHand : List Landmark :=
  [⟨0, 0⟩, ⟨1, -1⟩, ⟨2, -2⟩, ⟨3, -3⟩, ⟨4, -4⟩, ⟨5, -5⟩, ⟨6, -6⟩,
   ⟨7, -7⟩, ⟨8, -8⟩, ⟨9, -9⟩, ⟨10, -10⟩, ⟨11, -11⟩, ⟨12, -12⟩,
   ⟨13, -13⟩, ⟨14, -14⟩, ⟨15, -15⟩, ⟨16, -16⟩, ⟨17, -17⟩, ⟨18, -18⟩,
   ⟨19, -19⟩, ⟨20, -20⟩]

/-- A detector state currently in FIST with the cooldown long expired. -/
def sFist : GDState := { initGDState with currentState := GState.FIST }

/-- Selection-signal frame 1: one finger at t = 600 ms. -/
def dStep1 : GDState × Option ℕ := updateFingerCount 600 1 initGDState

/-- Selection-signal frame 2: five fingers at t = 1200 ms. -/
def dStep2 : GDState × Option ℕ := updateFingerCount 1200 5 dStep1.1

/-- Selection-signal frame 3: one finger again at t = 1800 ms. -/
def dStep3 : GDState × Option ℕ := updateFingerCount 1800 1 dStep2.1

/-- The manager after a first selection of scroll 0. -/
def mSel : ScrollManager := selectScroll 0 managerInit

/-- A sample target point. -/
def pt0 : TPoint := ⟨10, 20, 0, 0xFFD700⟩

/-- A small engine mid-animation (pool of 2, one launched particle). -/
def fwBusy : FireworksSystem :=
  (FireworksSystem.launch env0 [pt0] (initSystem 2)).1

/-- The engine after launching an empty target cloud on a pool of 1:
animating, with an empty active list. -/
def fwStuck : FireworksSystem :=
  (FireworksSystem.launch env0 [] (initSystem 1)).1

/-- A running engine whose active list references an inactive slot. -/
def fwZeroActive : FireworksSystem :=
  { particlePool := [initParticle]
    activeParticles := [0]
    isAnimating := true
    targetPoints := []
    rngCursor := 0 }

/-! # Theorems

Helper lemmas first, then one theorem per claim (with its witness or
counterexample where required). -/

/-! ## Gesture detector: helper lemmas -/

theorem updateFingerCount_preserves (now : ℤ) (c : ℕ) (s : GDState) :
    ((updateFingerCount now c s).1).currentState = s.currentState ∧
    ((updateFingerCount now c s).1).previousState = s.previousState ∧
    ((updateFingerCount now c s).1).lastTriggerTime = s.lastTriggerTime := by
  unfold updateFingerCount
  by_cases h1 : clampValidFingerCount c ≠ s.previousFingerCount
  · by_cases h2 : fingerCountDebounceMs < now - s.lastFingerCountChangeTime
    · simp [h1, h2]
    · simp [h1, h2]
  · simp [h1]

theorem classifyGesture_eq_OPEN (c : ℕ) :
    classifyGesture c = GState.OPEN ↔ FIST_THRESHOLD ≤ c := by
  unfold classifyGesture
  split <;> simp_all

theorem processHand_triggered_iff (now : ℤ) (c : ℕ) (s : GDState) :
    ((processHand now c s).2.triggered = true) ↔
      (s.currentState = GState.FIST ∧ FIST_THRESHOLD ≤ c ∧
        COOLDOWN_MS < now - s.lastTriggerTime) := by
  have h := updateFingerCount_preserves now c s
  simp [processHand, h.1, h.2.2, classifyGesture_eq_OPEN, and_assoc]

theorem processHand_time_triggered (now : ℤ) (c : ℕ) (s : GDState)
    (h : (processHand now c s).2.triggered = true) :
    (processHand now c s).1.lastTriggerTime = now := by
  simp only [processHand] at h ⊢
  simp only [h]
  simp

theorem processHand_time_not_triggered (now : ℤ) (c : ℕ) (s : GDState)
    (h : (processHand now c s).2.triggered = false) :
    (processHand now c s).1.lastTriggerTime = s.lastTriggerTime := by
  have hp := updateFingerCount_preserves now c s
  simp only [processHand] at h ⊢
  simp only [h]
  simpa using hp.2.2

theorem onResults_ok_iff (now : ℤ) (hands : List (List Landmark)) (s : GDState)
    (out : GDState × GDEvents) :
    onResults now hands s = Except.ok out ↔
      ((hands.head? = none ∧ out = (noHand s, noEvents)) ∨
        (∃ lms c, hands.head? = some lms ∧
          drawHandSkeletonAccesses lms = Except.ok () ∧
          countExtendedFingers lms = Except.ok c ∧ out = processHand now c s)) := by
  unfold onResults
  cases hh : hands.head? with
  | none => simp [eq_comm]
  | some lms =>
      cases hd : drawHandSkeletonAccesses lms with
      | error e =>
          cases e
          simp [hd, Bind.bind, Except.bind]
      | ok u =>
          cases u
          cases hc : countExtendedFingers lms with
          | error e =>
              cases e
              simp [hd, hc, Bind.bind, Except.bind]
          | ok c0 =>
              simp [hd, hc, Bind.bind, Except.bind, Pure.pure, Except.pure, eq_comm]

theorem onResults_ok_time (now : ℤ) (hands : List (List Landmark))
    (s : GDState) (out : GDState × GDEvents)
    (h : onResults now hands s = Except.ok out) :
    (out.2.triggered = true →
      COOLDOWN_MS < now - s.lastTriggerTime ∧ out.1.lastTriggerTime = now) ∧
    (out.2.triggered = false → out.1.lastTriggerTime = s.lastTriggerTime) := by
  rcases (onResults_ok_iff now hands s out).1 h with ⟨_, rfl⟩ | ⟨lms, c, _, _, _, rfl⟩
  · refine ⟨fun ht => ?_, fun _ => rfl⟩
    simp [noEvents] at ht
  · exact ⟨fun ht => ⟨((processHand_triggered_iff now c s).1 ht).2.2,
      processHand_time_triggered now c s ht⟩,
      processHand_time_not_triggered now c s⟩

theorem stepGD_none_time (s : GDState) (input : ℤ × List (List Landmark))
    (h : (stepGD s input).2 = none) :
    (stepGD s input).1.lastTriggerTime = s.lastTriggerTime := by
  unfold stepGD at h ⊢
  cases ho : onResults input.1 input.2 s with
  | error e => rfl
  | ok out =>
      rcases out with ⟨s', ev⟩
      simp only [ho] at h ⊢
      cases hev : ev.triggered with
      | true => simp [hev] at h
      | false =>
          exact (onResults_ok_time input.1 input.2 s (s', ev) ho).2 hev

theorem stepGD_some_time (s : GDState) (input : ℤ × List (List Landmark))
    (t : ℤ) (h : (stepGD s input).2 = some t) :
    COOLDOWN_MS < t - s.lastTriggerTime ∧
    (stepGD s input).1.lastTriggerTime = t := by
  unfold stepGD at h ⊢
  cases ho : onResults input.1 input.2 s with
  | error e => simp [ho] at h
  | ok out =>
      rcases out with ⟨s', ev⟩
      simp only [ho] at h ⊢
      cases hev : ev.triggered with
      | false => simp [hev] at h
      | true =>
          simp only [hev, if_pos] at h
          obtain rfl : input.1 = t := by simpa using h
          have := (onResults_ok_time input.1 input.2 s (s', ev) ho).1 hev
          simpa using this

theorem runGD_head_time (s : GDState)
    (inputs : List (ℤ × List (List Landmark))) (t : ℤ)
    (h : ((runGD s inputs).2).head? = some t) :
    COOLDOWN_MS < t - s.lastTriggerTime := by
  induction inputs generalizing s with
  | nil => simp [runGD] at h
  | cons input rest ih =>
      simp only [runGD] at h
      cases hst : (stepGD s input).2 with
      | some t0 =>
          simp only [hst, List.head?_cons, Option.some.injEq] at h
          subst h
          exact (stepGD_some_time s input t0 hst).1
      | none =>
          simp only [hst] at h
          have := ih (stepGD s input).1 h
          rwa [stepGD_none_time s input hst] at this

theorem runGD_chain (s : GDState)
    (inputs : List (ℤ × List (List Landmark))) :
    List.Chain' (fun t1 t2 => COOLDOWN_MS < t2 - t1) ((runGD s inputs).2) := by
  induction inputs generalizing s with
  | nil => simp [runGD]
  | cons input rest ih =>
      simp only [runGD]
      cases hst : (stepGD s input).2 with
      | none => exact ih (stepGD s input).1
      | some t =>
          rw [List.chain'_cons']
          refine ⟨fun t2 ht2 => ?_, ih (stepGD s input).1⟩
          have := runGD_head_time (stepGD s input).1 rest t2 ht2
          rwa [(stepGD_some_time s input t hst).2] at this

/-! ## Claim C1: trigger policy -/

/-- C1: a trigger fires on a processed frame exactly when the state before
the frame is FIST, the frame classifies as OPEN (at least FIST_THRESHOLD
extended fingers), and more than the cooldown has passed since the last
fired trigger; a state of UNKNOWN before the frame (in particular any
transition into OPEN from UNKNOWN) never fires; and over any frame
sequence, consecutive fired triggers are always more than the cooldown
apart, so a second FIST→OPEN transition fires only when at least the
cooldown has elapsed since the first fired trigger. -/
theorem c1_trigger_policy :
    (∀ (now : ℤ) (hands : List (List Landmark)) (s : GDState)
        (out : GDState × GDEvents),
        onResults now hands s = Except.ok out →
        (out.2.triggered = true ↔
          (s.currentState = GState.FIST ∧
            (∃ lms c, hands.head? = some lms ∧
              countExtendedFingers lms = Except.ok c ∧ FIST_THRESHOLD ≤ c) ∧
            COOLDOWN_MS < now - s.lastTriggerTime))) ∧
    (∀ (now : ℤ) (hands : List (List Landmark)) (s : GDState)
        (out : GDState × GDEvents),
        onResults now hands s = Except.ok out →
        s.currentState = GState.UNKNOWN → out.2.triggered = false) ∧
    (∀ (s : GDState) (inputs : List (ℤ × List (List Landmark))),
        List.Chain' (fun t1 t2 => COOLDOWN_MS < t2 - t1) ((runGD s inputs).2)) := by
  refine ⟨?_, ?_, runGD_chain⟩
  · intro now hands s out h
    rcases (onResults_ok_iff now hands s out).1 h with ⟨hh, rfl⟩ | ⟨lms, c, hh, hd, hc, rfl⟩
    · simp [noEvents, hh]
    · rw [processHand_triggered_iff]
      constructor
      · rintro ⟨h1, h2, h3⟩
        exact ⟨h1, ⟨lms, c, hh, hc, h2⟩, h3⟩
      · rintro ⟨h1, ⟨lms2, c2, hh2, hc2, hth2⟩, h3⟩
        rw [hh] at hh2
        injection hh2 with he
        subst he
        rw [hc] at hc2
        injection hc2 with he2
        subst he2
        exact ⟨h1, hth2, h3⟩
  · intro now hands s out h hU
    cases htr : out.2.triggered with
    | false => rfl
    | true =>
        exfalso
        rcases (onResults_ok_iff now hands s out).1 h with ⟨_, rfl⟩ | ⟨lms, c, _, _, _, rfl⟩
        · simp [noEvents] at htr
        · have hf := ((processHand_triggered_iff now c s).1 htr).1
          rw [hU] at hf
          exact GState.noConfusion hf

/-- Evaluation of the finger count on the all-extended frame.  (Rational
comparisons are not kernel-decidable, so this is established by simp and
norm_num rather than by decide.) -/
theorem countExtendedFingers_openHand :
    countExtendedFingers openHand = Except.ok 5 := by
  norm_num [countExtendedFingers, getLm, openHand, fingerPairs, fingerStep,
    List.foldlM, Bind.bind, Except.bind, Pure.pure, Except.pure]

/-- Evaluation of one onResults call on the all-extended frame from a FIST
state with the cooldown expired. -/
theorem onResults_openHand :
    onResults 2000 [openHand] sFist =
      Except.ok (processHand 2000 5 sFist) := by
  have hd : drawHandSkeletonAccesses openHand = Except.ok () := rfl
  unfold onResults
  simp [hd, countExtendedFingers_openHand, Bind.bind, Except.bind,
    Pure.pure, Except.pure]

/-- Witness for C1: from a FIST state with the cooldown expired, an
all-fingers-extended frame at t = 2000 ms fires the trigger. -/
theorem c1_trigger_policy_witness :
    ∃ out, onResults 2000 [openHand] sFist = Except.ok out ∧
      out.2.triggered = true := by
  refine ⟨processHand 2000 5 sFist, onResults_openHand, ?_⟩
  exact (c1_trigger_policy.1 2000 [openHand] sFist _ onResults_openHand).mpr
    ⟨rfl, ⟨openHand, 5, rfl, countExtendedFingers_openHand, by decide⟩,
      by decide⟩

/-! ## Claim C4: debounced selection signal -/

/-- C4 (amended): the selection signal emits exactly when the clamped
finger count differs from the tracked count AND more than the debounce
interval has passed since the last accepted change (an accepted change
updates the tracked count and the change timestamp whether or not it
emits); finger counts outside 1..3 never emit, and they reset the tracked
count to 0 exactly when the difference-and-debounce condition holds;
every emitted event carries scroll index fingerCount - 1. -/
theorem c4_selection_signal :
    ∀ (now : ℤ) (c : ℕ) (s : GDState),
      (∀ i, (updateFingerCount now c s).2 = some i ↔
          (clampValidFingerCount c ≠ s.previousFingerCount ∧
           fingerCountDebounceMs < now - s.lastFingerCountChangeTime ∧
           0 < clampValidFingerCount c ∧ i = clampValidFingerCount c - 1)) ∧
      (clampValidFingerCount c = 0 → (updateFingerCount now c s).2 = none) ∧
      (clampValidFingerCount c = 0 →
        clampValidFingerCount c ≠ s.previousFingerCount →
        fingerCountDebounceMs < now - s.lastFingerCountChangeTime →
        (updateFingerCount now c s).1.previousFingerCount = 0 ∧
        (updateFingerCount now c s).1.currentFingerCount = 0) := by
  intro now c s
  refine ⟨?_, ?_, ?_⟩
  · intro i
    unfold updateFingerCount
    by_cases h1 : clampValidFingerCount c = s.previousFingerCount
    · simp [h1]
    · by_cases h2 : fingerCountDebounceMs < now - s.lastFingerCountChangeTime
      · by_cases h3 : 0 < clampValidFingerCount c
        · simp [h1, h2, h3, eq_comm]
        · simp [h1, h2, h3]
      · simp [h1, h2]
  · intro h0
    unfold updateFingerCount
    by_cases h1 : clampValidFingerCount c = s.previousFingerCount
    · simp [h1]
    · by_cases h2 : fingerCountDebounceMs < now - s.lastFingerCountChangeTime
      · simp only [h0] at h1 ⊢
        simp [h1, h2]
      · simp [h1, h2]
  · intro h0 h1 h2
    unfold updateFingerCount
    simp only [h0] at h1 ⊢
    simp [h1, h2]

/-- Counterexample to C4 as stated: with frames (t = 600, count 1),
(t = 1200, count 5), (t = 1800, count 1), the third frame emits scroll
index 0 again even though its clamped count equals the last emitted value
(the out-of-range frame silently reset the tracked count to 0, moving the
debounce reference point without emitting); moreover an out-of-range count
arriving within the debounce window (t = 700, count 5) does not reset the
tracked count at all. -/
theorem c4_counterexample :
    dStep1.2 = some 0 ∧ dStep2.2 = none ∧ dStep3.2 = some 0 ∧
    (updateFingerCount 700 5 dStep1.1).1.previousFingerCount = 1 := by
  decide

/-- Witness for C4: a one-finger frame at t = 600 ms from the initial
state emits scroll index 0. -/
theorem c4_selection_signal_witness :
    (updateFingerCount 600 1 initGDState).2 = some 0 := by
  exact ((c4_selection_signal 600 1 initGDState).1 0).mpr
    (by refine ⟨by decide, by decide, by decide, by decide⟩)

/-! ## Claim C5: malformed landmark frames -/

theorem exceptUnit_cases (e : Except Unit Unit) :
    e = Except.ok () ∨ e = Except.error () := by
  cases e with
  | ok a => cases a; exact Or.inl rfl
  | error a => cases a; exact Or.inr rfl

theorem accessPair_ok_iff (lms : List Landmark) (c : ℕ × ℕ) :
    accessPair lms c = Except.ok () ↔
      ((lms.get? c.1).isSome ∧ (lms.get? c.2).isSome) := by
  unfold accessPair getLm
  cases h1 : lms.get? c.1 <;> cases h2 : lms.get? c.2 <;>
    simp [h1, h2, Bind.bind, Except.bind, Pure.pure, Except.pure]

theorem foldAccess_ok_iff (lms : List Landmark) (ps : List (ℕ × ℕ)) :
    (List.foldlM (fun _ c => accessPair lms c) () ps = Except.ok ()) ↔
      (∀ c ∈ ps, (lms.get? c.1).isSome ∧ (lms.get? c.2).isSome) := by
  induction ps with
  | nil => simp [Pure.pure, Except.pure]
  | cons c ps ih =>
      rw [List.foldlM_cons]
      rcases exceptUnit_cases (accessPair lms c) with hc | hc
      · have hcc := (accessPair_ok_iff lms c).1 hc
        rw [hc]
        constructor
        · intro hok c2 hc2
          rcases List.mem_cons.1 hc2 with rfl | hmem
          · exact hcc
          · exact ih.1 (by simpa [Bind.bind, Except.bind] using hok) c2 hmem
        · intro hall
          have := ih.2 (fun c2 hmem => hall c2 (List.mem_cons_of_mem c hmem))
          simpa [Bind.bind, Except.bind] using this
      · have hcc : ¬((lms.get? c.1).isSome ∧ (lms.get? c.2).isSome) := by
          intro hh
          rw [(accessPair_ok_iff lms c).2 hh] at hc
          exact Except.noConfusion hc
        rw [hc]
        constructor
        · intro hok
          exact absurd (by simpa [Bind.bind, Except.bind] using hok :
            (Except.error () : Except Unit Unit) = Except.ok ()) (by simp)
        · intro hall
          exact absurd (hall c (List.mem_cons_self c ps)) hcc

theorem drawHandSkeletonAccesses_short (lms : List Landmark)
    (h : lms.length < 21) :
    drawHandSkeletonAccesses lms = Except.error () := by
  rcases exceptUnit_cases (drawHandSkeletonAccesses lms) with hd | hd
  · exfalso
    have hall := (foldAccess_ok_iff lms handConnections).1 hd
    have h20 := (hall (19, 20) (by decide)).2
    rw [List.get?_len_le (by omega : lms.length ≤ 20)] at h20
    simp at h20
  · exact hd

/-- C5 (amended): a frame with no hand entry is treated as no hand
detected (state becomes UNKNOWN, the tracked finger count becomes 0, no
event fires and nothing throws), but a present hand whose landmark list
has fewer than 21 joints makes frame processing throw (an out-of-range
landmark access), leaving the detector state unchanged. -/
theorem c5_malformed_landmarks :
    (∀ (now : ℤ) (s : GDState),
        onResults now [] s = Except.ok (noHand s, noEvents)) ∧
    (∀ (now : ℤ) (s : GDState) (lms : List Landmark)
        (rest : List (List Landmark)),
        lms.length < 21 → onResults now (lms :: rest) s = Except.error ()) := by
  constructor
  · intro now s
    rfl
  · intro now s lms rest h
    unfold onResults
    simp [drawHandSkeletonAccesses_short lms h, Bind.bind, Except.bind]

/-- Counterexample to C5 as stated: a present hand with a single joint
makes onResults throw instead of recovering to UNKNOWN. -/
theorem c5_counterexample :
    onResults 0 [[⟨0, 0⟩]] initGDState = Except.error () := by
  rfl

/-- Witness for C5: the malformed conjunct applied to the single-joint
hand, and the missing-hand conjunct applied at the initial state. -/
theorem c5_malformed_landmarks_witness :
    onResults 5 [[⟨0, 0⟩]] initGDState = Except.error () ∧
    onResults 5 [] initGDState = Except.ok (noHand initGDState, noEvents) := by
  exact ⟨c5_malformed_landmarks.2 5 initGDState [⟨0, 0⟩] [] (by decide),
    c5_malformed_landmarks.1 5 initGDState⟩

/-! ## Claim C10: finger count bounds -/

theorem fingerFold_ok_le (lms : List Landmark) (ps : List (ℕ × ℕ)) :
    ∀ c0 : ℕ,
      (∀ pr ∈ ps, (lms.get? pr.1).isSome ∧ (lms.get? pr.2).isSome) →
      ∃ r, List.foldlM (fingerStep lms) c0 ps = Except.ok r ∧
        r ≤ c0 + ps.length := by
  induction ps with
  | nil =>
      intro c0 _
      exact ⟨c0, rfl, by simp⟩
  | cons pr ps ih =>
      intro c0 hall
      obtain ⟨tip, htip⟩ :=
        Option.isSome_iff_exists.1 (hall pr (by simp)).1
      obtain ⟨pip, hpip⟩ :=
        Option.isSome_iff_exists.1 (hall pr (by simp)).2
      have hstep : fingerStep lms c0 pr =
          Except.ok (if tip.y < pip.y - 1/50 then c0 + 1 else c0) := by
        unfold fingerStep getLm
        rw [htip, hpip]
        simp [Bind.bind, Except.bind, Pure.pure, Except.pure]
      obtain ⟨r, hr, hle⟩ :=
        ih (if tip.y < pip.y - 1/50 then c0 + 1 else c0)
          (fun pr2 h2 => hall pr2 (by simp [h2]))
      refine ⟨r, ?_, ?_⟩
      · rw [List.foldlM_cons, hstep]
        simpa [Bind.bind, Except.bind] using hr
      · have hb : (if tip.y < pip.y - 1/50 then c0 + 1 else c0) ≤ c0 + 1 := by
          split <;> omega
        simp only [List.length_cons]
        omega

/-- C10: on any landmark frame with all 21 joints, countExtendedFingers
succeeds and returns a count of at most 5 (each of the five fingers
contributes at most one), so downstream consumers always receive a count
in 0..5. -/
theorem c10_finger_count_bounds :
    ∀ lms : List Landmark, lms.length = 21 →
      ∃ c, countExtendedFingers lms = Except.ok c ∧ c ≤ 5 := by
  intro lms h
  have hsome : ∀ i, i < 21 → (lms.get? i).isSome := by
    intro i hi
    rw [List.get?_eq_get (by omega)]
    rfl
  obtain ⟨t4, h4⟩ := Option.isSome_iff_exists.1 (hsome 4 (by omega))
  obtain ⟨t3, h3⟩ := Option.isSome_iff_exists.1 (hsome 3 (by omega))
  have hall : ∀ pr ∈ fingerPairs,
      (lms.get? pr.1).isSome ∧ (lms.get? pr.2).isSome := by
    intro pr hpr
    simp only [fingerPairs, List.mem_cons, List.mem_singleton] at hpr
    rcases hpr with rfl | rfl | rfl | rfl | h0
    · exact ⟨hsome 8 (by omega), hsome 6 (by omega)⟩
    · exact ⟨hsome 12 (by omega), hsome 10 (by omega)⟩
    · exact ⟨hsome 16 (by omega), hsome 14 (by omega)⟩
    · exact ⟨hsome 20 (by omega), hsome 18 (by omega)⟩
    · cases h0
  obtain ⟨r, hr, hle⟩ :=
    fingerFold_ok_le lms fingerPairs
      (if 1/20 < |t4.x - t3.x| then 1 else 0) hall
  refine ⟨r, ?_, ?_⟩
  · unfold countExtendedFingers getLm
    rw [h4, h3]
    simpa [Bind.bind, Except.bind] using hr
  · have hc0 : (if 1/20 < |t4.x - t3.x| then 1 else 0) ≤ 1 := by
      split <;> omega
    have hlen : fingerPairs.length = 4 := by decide
    omega

/-- Witness for C10: the all-extended 21-landmark frame gives a count of
at most 5 (in fact 5). -/
theorem c10_finger_count_bounds_witness :
    ∃ c, countExtendedFingers openHand = Except.ok c ∧ c ≤ 5 := by
  exact c10_finger_count_bounds openHand (by decide)

/-! ## Claims C3 and C8: selectScroll -/

theorem applyHover_length (idx : ℤ) (l : List FortuneScroll) :
    ∀ i, (applyHover idx i l).length = l.length := by
  induction l with
  | nil => intro i; rfl
  | cons sc rest ih =>
      intro i
      simp [applyHover, ih]

theorem applyHover_get? (idx : ℤ) (l : List FortuneScroll) :
    ∀ i k, (applyHover idx i l).get? k =
      (l.get? k).map (fun sc => sc.setHovering (decide (((i + k : ℕ) : ℤ) = idx))) := by
  induction l with
  | nil => intro i k; rfl
  | cons sc rest ih =>
      intro i k
      cases k with
      | zero => simp [applyHover]
      | succ k =>
          simp only [applyHover, List.get?_cons_succ, ih (i + 1) k]
          have : i + 1 + k = i + (k + 1) := by omega
          rw [this]

theorem setHovering_state (sc : FortuneScroll) (b : Bool)
    (h : sc.state = ScrollState.IDLE ∨ sc.state = ScrollState.HOVERING) :
    (sc.setHovering b).state =
      (if b then ScrollState.HOVERING else ScrollState.IDLE) := by
  unfold FortuneScroll.setHovering
  rcases h with h | h <;> cases b <;> simp [h]

/-- Counterexample to C3 as stated: with the manager already SELECTING
(after selecting scroll 0), selectScroll 1 with index 1 in range is a
complete no-op, although the claim requires it to apply (move the hover to
item 1 and make the tentative selectedIndex 1). -/
theorem c3_counterexample :
    mSel.state = MgrState.SELECTING ∧
    mSel.selectedScrollIndex = some 0 ∧
    (1 : ℤ) < (mSel.scrolls.length : ℤ) ∧
    selectScroll 1 mSel = mSel ∧
    (selectScroll 1 mSel).selectedScrollIndex ≠ some 1 := by
  have hno : selectScroll 1 mSel = mSel := rfl
  refine ⟨rfl, rfl, by decide, hno, ?_⟩
  rw [hno]
  decide

/-- C3 (amended): selectScroll(index) is ignored (a no-op on the manager
and every item) unless the manager is in IDLE state with no animation in
progress and index is in range — in particular it is also ignored while
SELECTING; when it applies, the targeted item becomes HOVERING, every
other item becomes IDLE, the manager state becomes SELECTING and the
targeted index becomes the tentative selectedScrollIndex. -/
theorem c3_selectScroll_spec :
    (∀ (m : ScrollManager) (idx : ℤ),
      (m.isAnimating = true ∨ m.state ≠ MgrState.IDLE ∨ idx < 0 ∨
        (m.scrolls.length : ℤ) ≤ idx) →
      selectScroll idx m = m) ∧
    (∀ (m : ScrollManager) (idx : ℤ),
      m.isAnimating = false → m.state = MgrState.IDLE →
      0 ≤ idx → idx < (m.scrolls.length : ℤ) →
      (∀ sc ∈ m.scrolls,
        sc.state = ScrollState.IDLE ∨ sc.state = ScrollState.HOVERING) →
      (selectScroll idx m).state = MgrState.SELECTING ∧
      (selectScroll idx m).selectedScrollIndex = some idx ∧
      (selectScroll idx m).scrolls.length = m.scrolls.length ∧
      (∀ (k : ℕ) sc, (selectScroll idx m).scrolls.get? k = some sc →
        sc.state = (if (k : ℤ) = idx then ScrollState.HOVERING
                    else ScrollState.IDLE))) := by
  constructor
  · intro m idx h
    unfold selectScroll
    rcases h with h | h | h | h
    · simp [h]
    · simp [h]
    · rcases Decidable.em (m.isAnimating = true ∨ m.state ≠ MgrState.IDLE) with hg | hg
      · simp [hg]
      · simp [hg, h]
    · rcases Decidable.em (m.isAnimating = true ∨ m.state ≠ MgrState.IDLE) with hg | hg
      · simp [hg]
      · rw [if_neg hg, if_pos (Or.inr h)]
  · intro m idx hAnim hIdle hlo hhi hsc
    have hguard : ¬(m.isAnimating = true ∨ m.state ≠ MgrState.IDLE) := by
      simp [hAnim, hIdle]
    have hrange : ¬(idx < 0 ∨ (m.scrolls.length : ℤ) ≤ idx) := by
      omega
    have heq : selectScroll idx m =
        { m with
            scrolls := applyHover idx 0 m.scrolls
            selectedScrollIndex := some idx
            state := MgrState.SELECTING } := by
      unfold selectScroll
      rw [if_neg hguard, if_neg hrange]
    refine ⟨by rw [heq], by rw [heq], ?_, ?_⟩
    · rw [heq]
      exact applyHover_length idx m.scrolls 0
    · intro k sc hk
      rw [heq] at hk
      simp only [applyHover_get? idx m.scrolls 0 k] at hk
      cases hmk : m.scrolls.get? k with
      | none => rw [hmk] at hk; simp at hk
      | some sc0 =>
          rw [hmk] at hk
          simp only [Option.map] at hk
          injection hk with hk2
          subst hk2
          have hmem : sc0 ∈ m.scrolls := List.get?_mem hmk
          have hzk : ((0 + k : ℕ) : ℤ) = (k : ℤ) := by omega
          rw [setHovering_state sc0 _ (hsc sc0 hmem), hzk]
          by_cases hek : (k : ℤ) = idx
          · simp [hek]
          · simp [hek]

/-- Witness for C3: both directions applied concretely — selectScroll 1 on
the freshly initialized manager applies (hover moves to item 1), and
selectScroll 2 on a SELECTING manager is a no-op. -/
theorem c3_selectScroll_spec_witness :
    (selectScroll 1 managerInit).state = MgrState.SELECTING ∧
    (selectScroll 1 managerInit).selectedScrollIndex = some 1 ∧
    selectScroll 2 mSel = mSel := by
  have h := c3_selectScroll_spec.2 managerInit 1 rfl rfl (by decide) (by decide)
    (by intro sc hsc
        simp only [managerInit, mkIdleScroll, List.mem_cons] at hsc
        rcases hsc with rfl | rfl | rfl | h0
        · exact Or.inl rfl
        · exact Or.inl rfl
        · exact Or.inl rfl
        · cases h0)
  exact ⟨h.1, h.2.1, c3_selectScroll_spec.1 mSel 2 (Or.inr (Or.inl (by decide)))⟩

/-- C8: re-selection is idempotent — while the manager is SELECTING,
calling selectScroll twice with the same index leaves the manager and all
item state identical to calling it once (in this code base both calls are
in fact no-ops, because selectScroll only applies from IDLE). -/
theorem c8_selectScroll_idempotent :
    ∀ (m : ScrollManager) (i : ℤ), m.state = MgrState.SELECTING →
      selectScroll i (selectScroll i m) = selectScroll i m := by
  intro m i h
  have hno : selectScroll i m = m := by
    unfold selectScroll
    rw [if_pos (Or.inr (by rw [h]; intro hc; exact MgrState.noConfusion hc))]
  rw [hno]
  exact hno

/-- Witness for C8: double selection of index 0 on the SELECTING manager
equals single selection. -/
theorem c8_selectScroll_idempotent_witness :
    selectScroll 0 (selectScroll 0 mSel) = selectScroll 0 mSel := by
  exact c8_selectScroll_idempotent mSel 0 rfl

/-! ## Claim C9: jitterPoints -/

theorem jitterPointsAux_length (rand : ℕ → ℚ) (amount : ℚ)
    (l : List TPoint) : ∀ k0, (jitterPointsAux rand amount k0 l).length = l.length := by
  induction l with
  | nil => intro k0; rfl
  | cons p rest ih =>
      intro k0
      simp [jitterPointsAux, ih]

theorem jitterPointsAux_get? (rand : ℕ → ℚ) (amount : ℚ) (l : List TPoint) :
    ∀ k0 k, (jitterPointsAux rand amount k0 l).get? k =
      (l.get? k).map (jitterPoint rand amount (k0 + 3 * k)) := by
  induction l with
  | nil => intro k0 k; rfl
  | cons p rest ih =>
      intro k0 k
      cases k with
      | zero => simp [jitterPointsAux]
      | succ k =>
          simp only [jitterPointsAux, List.get?_cons_succ, ih (k0 + 3) k]
          have harith : k0 + 3 + 3 * k = k0 + 3 * (k + 1) := by omega
          rw [harith]

theorem jitter_noise_bound (r amount : ℚ) (hr0 : 0 ≤ r) (hr1 : r < 1)
    (ha : 0 ≤ amount) : |(r - 1/2) * amount| ≤ amount / 2 := by
  have habs : |r - 1/2| ≤ 1/2 := abs_le.mpr ⟨by linarith, by linarith⟩
  calc |(r - 1/2) * amount| = |r - 1/2| * |amount| := abs_mul _ _
    _ = |r - 1/2| * amount := by rw [abs_of_nonneg ha]
    _ ≤ (1/2) * amount := mul_le_mul_of_nonneg_right habs ha
    _ = amount / 2 := by ring

/-- C9: jitterPoints returns a fresh cloud of the same length in which
point k keeps its color and has each coordinate perturbed by its own
random draw scaled into [-amount/2, +amount/2] (the three axes consume
three distinct stream values); the input cloud is only read — every output
value is expressed in terms of the unchanged input point. -/
theorem c9_jitter_points :
    ∀ (rand : ℕ → ℚ) (points : List TPoint) (amount : ℚ),
      (∀ n, 0 ≤ rand n ∧ rand n < 1) → 0 ≤ amount →
      (jitterPoints rand points amount).length = points.length ∧
      (∀ (k : ℕ) (p : TPoint), points.get? k = some p →
        ∃ q, (jitterPoints rand points amount).get? k = some q ∧
          q.color = p.color ∧
          q.x = p.x + (rand (3 * k) - 1/2) * amount ∧
          q.y = p.y + (rand (3 * k + 1) - 1/2) * amount ∧
          q.z = p.z + (rand (3 * k + 2) - 1/2) * amount ∧
          |q.x - p.x| ≤ amount / 2 ∧ |q.y - p.y| ≤ amount / 2 ∧
          |q.z - p.z| ≤ amount / 2) := by
  intro rand points amount hr ha
  refine ⟨jitterPointsAux_length rand amount points 0, ?_⟩
  intro k p hk
  refine ⟨jitterPoint rand amount (3 * k) p, ?_, rfl, ?_, ?_, ?_, ?_, ?_, ?_⟩
  · unfold jitterPoints
    rw [jitterPointsAux_get? rand amount points 0 k, hk]
    simp
  · rfl
  · rfl
  · rfl
  · have hx : (jitterPoint rand amount (3 * k) p).x - p.x =
        (rand (3 * k) - 1/2) * amount := by
      simp [jitterPoint]
    rw [hx]
    exact jitter_noise_bound _ _ (hr _).1 (hr _).2 ha
  · have hy : (jitterPoint rand amount (3 * k) p).y - p.y =
        (rand (3 * k + 1) - 1/2) * amount := by
      simp [jitterPoint]
    rw [hy]
    exact jitter_noise_bound _ _ (hr _).1 (hr _).2 ha
  · have hz : (jitterPoint rand amount (3 * k) p).z - p.z =
        (rand (3 * k + 2) - 1/2) * amount := by
      simp [jitterPoint]
    rw [hz]
    exact jitter_noise_bound _ _ (hr _).1 (hr _).2 ha

/-- Witness for C9: jittering the one-point cloud (1, 2, 3) with the zero
random stream and amount 5 keeps the color and stays within 5/2 per axis. -/
theorem c9_jitter_points_witness :
    ∃ q, (jitterPoints (fun _ => 0) [⟨1, 2, 3, 7⟩] 5).get? 0 = some q ∧
      q.color = 7 ∧ |q.x - 1| ≤ 5 / 2 := by
  obtain ⟨q, hq, hcol, _, _, _, hbx, _, _⟩ :=
    (c9_jitter_points (fun _ => 0) [⟨1, 2, 3, 7⟩] 5
      (fun n => ⟨le_refl 0, by norm_num⟩) (by norm_num)).2 0 ⟨1, 2, 3, 7⟩ rfl
  exact ⟨q, hq, hcol, hbx⟩

/-! ## Claim C7: launch while busy -/

/-- C7: calling launch while an animation is in progress is a no-op apart
from the busy log signal — the returned state is exactly the input state
(no particle allocated, no pool slot, active list or target list change)
and the result channel reports busy. -/
theorem c7_launch_busy :
    ∀ (env : Env) (pts : List TPoint) (s : FireworksSystem),
      s.isAnimating = true →
      FireworksSystem.launch env pts s = (s, LaunchResult.busy) := by
  intro env pts s h
  unfold FireworksSystem.launch
  rw [if_pos h]

/-- Witness for C7: a second launch on the small mid-animation engine is a
no-op reporting busy. -/
theorem c7_launch_busy_witness :
    FireworksSystem.launch env0 [pt0] fwBusy = (fwBusy, LaunchResult.busy) := by
  exact c7_launch_busy env0 [pt0] fwBusy rfl

/-! ## Fireworks engine: pool access lemmas -/

theorem poolGet_set_self (pool : List Particle) (i : ℕ) (p : Particle)
    (h : i < pool.length) : poolGet (pool.set i p) i = p := by
  unfold poolGet
  rw [List.getD, List.get?_set_eq, List.get?_eq_get h]
  rfl

theorem poolGet_set_other (pool : List Particle) (i j : ℕ) (p : Particle)
    (h : j ≠ i) : poolGet (pool.set i p) j = poolGet pool j := by
  unfold poolGet
  rw [List.getD, List.getD, List.get?_set_ne _ _ (fun hc => h hc.symm)]

theorem poolGet_active_lt (pool : List Particle) (i : ℕ)
    (h : (poolGet pool i).isActive = true) : i < pool.length := by
  by_contra hge
  unfold poolGet at h
  rw [List.getD, List.get?_len_le (by omega)] at h
  simp [initParticle] at h

theorem poolGet_replicate (n i : ℕ) :
    poolGet (List.replicate n initParticle) i = initParticle := by
  unfold poolGet
  rw [List.getD]
  cases h : (List.replicate n initParticle).get? i with
  | none => rfl
  | some p =>
      have := List.get?_mem h
      rw [List.eq_of_mem_replicate this]
      rfl

theorem findIdx_inactive :
    ∀ (l : List Particle) (base i : ℕ),
      List.findIdx? (fun p => !p.isActive) l base = some i →
      ∃ j, i = base + j ∧ j < l.length ∧ (poolGet l j).isActive = false := by
  intro l
  induction l with
  | nil =>
      intro base i h
      simp [List.findIdx?] at h
  | cons p rest ih =>
      intro base i h
      rw [List.findIdx?_cons] at h
      by_cases hp : p.isActive = false
      · rw [if_pos (by simp [hp])] at h
        injection h with h
        subst h
        exact ⟨0, by omega, by simp, by simpa [poolGet] using hp⟩
      · rw [if_neg (by simpa using hp)] at h
        obtain ⟨j, hij, hlt, hact⟩ := ih (base + 1) i h
        refine ⟨j + 1, by omega, by simpa using hlt, ?_⟩
        simpa [poolGet, List.getD] using hact

theorem getParticleFromPool_some (pool : List Particle) (i : ℕ)
    (h : getParticleFromPool pool = some i) :
    i < pool.length ∧ (poolGet pool i).isActive = false := by
  unfold getParticleFromPool at h
  obtain ⟨j, hij, hlt, hact⟩ := findIdx_inactive pool 0 i h
  have : i = j := by omega
  subst this
  exact ⟨hlt, hact⟩

/-! ## Fireworks engine: pool length preservation -/

theorem initLaunchParticle_length (env : Env) (t : TPoint) (i : ℕ)
    (s : FireworksSystem) :
    (initLaunchParticle env t i s).particlePool.length =
      s.particlePool.length := by
  simp [initLaunchParticle, drawRand]

theorem initExplosionParticle_length (env : Env) (center : Particle) (i : ℕ)
    (s : FireworksSystem) :
    (initExplosionParticle env center i s).particlePool.length =
      s.particlePool.length := by
  simp [initExplosionParticle, drawRand]

theorem createExplosion_length (env : Env) (center : Particle) :
    ∀ (k : ℕ) (s : FireworksSystem),
      (createExplosion env center k s).particlePool.length =
        s.particlePool.length := by
  intro k
  induction k with
  | zero => intro s; rfl
  | succ k ih =>
      intro s
      unfold createExplosion
      cases hf : getParticleFromPool s.particlePool with
      | none => rfl
      | some i =>
          rw [ih, initExplosionParticle_length]

theorem launchLoop_length (env : Env) :
    ∀ (pts : List TPoint) (s : FireworksSystem),
      (launchLoop env pts s).particlePool.length = s.particlePool.length := by
  intro pts
  induction pts with
  | nil => intro s; rfl
  | cons t rest ih =>
      intro s
      unfold launchLoop
      cases hf : getParticleFromPool s.particlePool with
      | none => rfl
      | some i =>
          rw [ih, initLaunchParticle_length]

theorem launch_length (env : Env) (pts : List TPoint) (s : FireworksSystem) :
    (FireworksSystem.launch env pts s).1.particlePool.length =
      s.particlePool.length := by
  unfold FireworksSystem.launch
  by_cases h : s.isAnimating = true
  · rw [if_pos h]
  · rw [if_neg h]
    exact launchLoop_length env pts _

theorem visitParticle_length (env : Env) (dt : ℚ) (i : ℕ)
    (s : FireworksSystem) :
    (visitParticle env dt i s).1.particlePool.length =
      s.particlePool.length := by
  unfold visitParticle
  by_cases ha : (poolGet s.particlePool i).isActive = false
  · rw [if_pos ha]
  · rw [if_neg ha]
    dsimp only
    cases hp : (lifeAdvanced s i dt).phase <;>
      simp [hp, updateLaunchPhase, updateExplodePhase, updateFadePhase,
        withSlot, createExplosion_length] <;> split <;>
      simp [createExplosion_length, withSlot]

theorem updateLoop_length (env : Env) (dt : ℚ) :
    ∀ (idxs : List ℕ) (s : FireworksSystem) (cnt : ℕ),
      (updateLoop env dt idxs s cnt).1.particlePool.length =
        s.particlePool.length := by
  intro idxs
  induction idxs with
  | nil => intro s cnt; rfl
  | cons i rest ih =>
      intro s cnt
      unfold updateLoop
      rw [ih, visitParticle_length]

theorem update_length (env : Env) (dt : ℚ) (s : FireworksSystem) :
    (FireworksSystem.update env dt s).particlePool.length =
      s.particlePool.length := by
  unfold FireworksSystem.update
  split
  · rfl
  · dsimp only
    split
    · exact updateLoop_length env dt s.activeParticles s 0
    · exact updateLoop_length env dt s.activeParticles s 0

theorem deactivateAll_length :
    ∀ (l : List ℕ) (pool : List Particle),
      (deactivateAll l pool).length = pool.length := by
  intro l
  induction l with
  | nil => intro pool; rfl
  | cons i rest ih =>
      intro pool
      unfold deactivateAll
      rw [ih]
      simp

theorem reset_length (s : FireworksSystem) :
    (FireworksSystem.reset s).particlePool.length =
      s.particlePool.length := by
  unfold FireworksSystem.reset
  exact deactivateAll_length s.activeParticles s.particlePool

theorem applyFwOp_length (env : Env) (s : FireworksSystem) (op : FwOp) :
    (applyFwOp env s op).particlePool.length = s.particlePool.length := by
  cases op with
  | launch pts => exact launch_length env pts s
  | update dt => exact update_length env dt s
  | reset => exact reset_length s

theorem runFw_length (env : Env) (poolSize : ℕ) (ops : List FwOp) :
    (runFw env poolSize ops).particlePool.length = poolSize := by
  unfold runFw
  have haux : ∀ (l : List FwOp) (s : FireworksSystem),
      (l.foldl (applyFwOp env) s).particlePool.length =
        s.particlePool.length := by
    intro l
    induction l with
    | nil => intro s; rfl
    | cons op rest ih =>
        intro s
        rw [List.foldl_cons, ih, applyFwOp_length]
  rw [haux]
  simp [initSystem, createParticlePool]

/-! ## Claim C2: pool capacity invariant -/

/-- C2: the number of active particles (pool slots in use) never exceeds
the fixed pool capacity — after any launch, whatever the size of the
target cloud (in particular one larger than the pool), and at every point
of every operation sequence on the engine; the pool itself never grows,
and every operation is total (allocation silently stops on pool
exhaustion rather than failing). -/
theorem c2_pool_capacity :
    (∀ (env : Env) (pts : List TPoint) (s : FireworksSystem),
        (FireworksSystem.launch env pts s).1.particlePool.length =
          s.particlePool.length ∧
        countActive (FireworksSystem.launch env pts s).1 ≤
          s.particlePool.length) ∧
    (∀ (env : Env) (poolSize : ℕ) (ops : List FwOp),
        (runFw env poolSize ops).particlePool.length = poolSize ∧
        countActive (runFw env poolSize ops) ≤ poolSize) := by
  constructor
  · intro env pts s
    refine ⟨launch_length env pts s, ?_⟩
    calc countActive (FireworksSystem.launch env pts s).1 ≤
        (FireworksSystem.launch env pts s).1.particlePool.length :=
          List.countP_le_length _
      _ = s.particlePool.length := launch_length env pts s
  · intro env poolSize ops
    refine ⟨runFw_length env poolSize ops, ?_⟩
    calc countActive (runFw env poolSize ops) ≤
        (runFw env poolSize ops).particlePool.length :=
          List.countP_le_length _
      _ = poolSize := runFw_length env poolSize ops

/-! ## Fireworks engine: active-list invariants -/

theorem initExplosionParticle_spec (env : Env) (center : Particle) (i : ℕ)
    (s : FireworksSystem) (hlt : i < s.particlePool.length) :
    (initExplosionParticle env center i s).activeParticles =
      s.activeParticles ++ [i] ∧
    (poolGet (initExplosionParticle env center i s).particlePool i).isActive
      = true ∧
    (∀ j, j ≠ i →
      poolGet (initExplosionParticle env center i s).particlePool j =
        poolGet s.particlePool j) ∧
    (initExplosionParticle env center i s).isAnimating = s.isAnimating := by
  refine ⟨rfl, ?_, ?_, rfl⟩
  · show (poolGet (s.particlePool.set i _) i).isActive = true
    rw [poolGet_set_self _ _ _ hlt]
  · intro j hj
    exact poolGet_set_other _ _ _ _ hj

theorem initLaunchParticle_spec (env : Env) (t : TPoint) (i : ℕ)
    (s : FireworksSystem) (hlt : i < s.particlePool.length) :
    (initLaunchParticle env t i s).activeParticles =
      s.activeParticles ++ [i] ∧
    (poolGet (initLaunchParticle env t i s).particlePool i).isActive = true ∧
    (∀ j, j ≠ i →
      poolGet (initLaunchParticle env t i s).particlePool j =
        poolGet s.particlePool j) ∧
    (initLaunchParticle env t i s).isAnimating = s.isAnimating := by
  refine ⟨rfl, ?_, ?_, rfl⟩
  · show (poolGet (s.particlePool.set i _) i).isActive = true
    rw [poolGet_set_self _ _ _ hlt]
  · intro j hj
    exact poolGet_set_other _ _ _ _ hj

theorem createExplosion_spec (env : Env) (center : Particle) :
    ∀ (k : ℕ) (s : FireworksSystem),
      (∃ ext, (createExplosion env center k s).activeParticles =
        s.activeParticles ++ ext) ∧
      (createExplosion env center k s).isAnimating = s.isAnimating ∧
      (∀ i, (poolGet s.particlePool i).isActive = true →
        (poolGet (createExplosion env center k s).particlePool i).isActive
          = true) ∧
      (ActiveListed s → ActiveListed (createExplosion env center k s)) := by
  intro k
  induction k with
  | zero =>
      intro s
      exact ⟨⟨[], (List.append_nil _).symm⟩, rfl, fun i h => h, fun h => h⟩
  | succ k ih =>
      intro s
      unfold createExplosion
      cases hf : getParticleFromPool s.particlePool with
      | none => exact ⟨⟨[], (List.append_nil _).symm⟩, rfl, fun i h => h, fun h => h⟩
      | some j =>
          obtain ⟨hjlt, hjinact⟩ := getParticleFromPool_some _ _ hf
          obtain ⟨hact, hslot, hothers, hanim⟩ :=
            initExplosionParticle_spec env center j s hjlt
          obtain ⟨hext, hanim2, hpres, hlisted⟩ :=
            ih (initExplosionParticle env center j s)
          refine ⟨?_, ?_, ?_, ?_⟩
          · obtain ⟨ext, hex⟩ := hext
            exact ⟨[j] ++ ext, by rw [hex, hact, List.append_assoc]⟩
          · rw [hanim2, hanim]
          · intro i hi
            have hij : i ≠ j := by
              intro hij
              rw [hij] at hi
              rw [hi] at hjinact
              exact Bool.noConfusion hjinact
            exact hpres i (by rw [hothers i hij]; exact hi)
          · intro hAL
            refine hlisted ?_
            intro i hi
            by_cases hij : i = j
            · subst hij
              rw [hact]
              exact List.mem_append_right _ (List.mem_singleton_self i)
            · rw [hothers i hij] at hi
              rw [hact]
              exact List.mem_append_left _ (hAL i hi)

theorem launchLoop_spec (env : Env) :
    ∀ (pts : List TPoint) (s : FireworksSystem),
      (∃ ext, (launchLoop env pts s).activeParticles =
        s.activeParticles ++ ext) ∧
      (launchLoop env pts s).isAnimating = s.isAnimating ∧
      (ActiveListed s → ActiveListed (launchLoop env pts s)) := by
  intro pts
  induction pts with
  | nil =>
      intro s
      exact ⟨⟨[], (List.append_nil _).symm⟩, rfl, fun h => h⟩
  | cons t rest ih =>
      intro s
      unfold launchLoop
      cases hf : getParticleFromPool s.particlePool with
      | none => exact ⟨⟨[], (List.append_nil _).symm⟩, rfl, fun h => h⟩
      | some j =>
          obtain ⟨hjlt, hjinact⟩ := getParticleFromPool_some _ _ hf
          obtain ⟨hact, hslot, hothers, hanim⟩ :=
            initLaunchParticle_spec env t j s hjlt
          obtain ⟨hext, hanim2, hlisted⟩ := ih (initLaunchParticle env t j s)
          refine ⟨?_, ?_, ?_⟩
          · obtain ⟨ext, hex⟩ := hext
            exact ⟨[j] ++ ext, by rw [hex, hact, List.append_assoc]⟩
          · rw [hanim2, hanim]
          · intro hAL
            refine hlisted ?_
            intro i hi
            by_cases hij : i = j
            · subst hij
              rw [hact]
              exact List.mem_append_right _ (List.mem_singleton_self i)
            · rw [hothers i hij] at hi
              rw [hact]
              exact List.mem_append_left _ (hAL i hi)

theorem withSlot_length (s : FireworksSystem) (i : ℕ) (p : Particle) :
    (withSlot s i p).particlePool.length = s.particlePool.length := by
  simp [withSlot]

theorem poolGet_withSlot_self (s : FireworksSystem) (i : ℕ) (p : Particle)
    (hl : i < s.particlePool.length) :
    poolGet (withSlot s i p).particlePool i = p := by
  unfold withSlot
  exact poolGet_set_self _ _ _ hl

theorem poolGet_withSlot_other (s : FireworksSystem) (i j : ℕ) (p : Particle)
    (hij : j ≠ i) :
    poolGet (withSlot s i p).particlePool j = poolGet s.particlePool j := by
  unfold withSlot
  exact poolGet_set_other _ _ _ _ hij

theorem activeListed_withSlot (s : FireworksSystem) (i : ℕ) (q : Particle)
    (hmem : (poolGet s.particlePool i).isActive = true)
    (hAL : ActiveListed s) : ActiveListed (withSlot s i q) := by
  intro j hj
  show j ∈ s.activeParticles
  by_cases hij : j = i
  · subst hij
    exact hAL j hmem
  · rw [poolGet_withSlot_other s i j q hij] at hj
    exact hAL j hj

theorem updateLaunchPhase_spec (env : Env) (dt lr : ℚ) (i : ℕ) (p : Particle)
    (s' : FireworksSystem) (hl : i < s'.particlePool.length)
    (hp : p.isActive = true)
    (hslot : poolGet s'.particlePool i = p) :
    (∃ ext, (updateLaunchPhase env dt lr i p s').activeParticles =
      s'.activeParticles ++ ext) ∧
    (updateLaunchPhase env dt lr i p s').isAnimating = s'.isAnimating ∧
    (poolGet (updateLaunchPhase env dt lr i p s').particlePool i).isActive
      = true ∧
    (ActiveListed s' → ActiveListed (updateLaunchPhase env dt lr i p s')) := by
  have hmem : (poolGet s'.particlePool i).isActive = true := by
    rw [hslot]
    exact hp
  unfold updateLaunchPhase
  by_cases hlr : 1 ≤ lr
  · rw [if_pos hlr]
    dsimp only
    have hl1 : i < (withSlot s' i
        { p with phase := Phase.explode, life := 0, maxLife := 3/10,
                 position := p.target }).particlePool.length := by
      rw [withSlot_length]
      exact hl
    have hslot1 := poolGet_withSlot_self s' i
      ({ p with phase := Phase.explode, life := 0, maxLife := 3/10,
                position := p.target }) hl
    have hact1 : (poolGet (withSlot s' i
        { p with phase := Phase.explode, life := 0, maxLife := 3/10,
                 position := p.target }).particlePool i).isActive = true := by
      rw [hslot1]
      exact hp
    obtain ⟨hext, hanim, hpres, hlisted⟩ :=
      createExplosion_spec env _ EXPLOSION_PARTICLES (withSlot s' i
        { p with phase := Phase.explode, life := 0, maxLife := 3/10,
                 position := p.target })
    refine ⟨?_, by rw [hanim]; rfl, hpres i hact1, ?_⟩
    · obtain ⟨ext, hex⟩ := hext
      exact ⟨ext, by rw [hex]; rfl⟩
    · intro hAL
      exact hlisted (activeListed_withSlot s' i _ hmem hAL)
  · rw [if_neg hlr]
    dsimp only
    refine ⟨⟨[], (List.append_nil _).symm⟩, rfl, ?_, ?_⟩
    · rw [poolGet_withSlot_self s' i _ hl]
      exact hp
    · exact activeListed_withSlot s' i _ hmem

theorem updateExplodePhase_spec (env : Env) (lr : ℚ) (i : ℕ) (p : Particle)
    (s' : FireworksSystem) (hl : i < s'.particlePool.length)
    (hp : p.isActive = true)
    (hslot : poolGet s'.particlePool i = p) :
    (updateExplodePhase env lr i p s').activeParticles =
      s'.activeParticles ∧
    (updateExplodePhase env lr i p s').isAnimating = s'.isAnimating ∧
    (poolGet (updateExplodePhase env lr i p s').particlePool i).isActive
      = true ∧
    (∀ j, j ≠ i →
      poolGet (updateExplodePhase env lr i p s').particlePool j =
        poolGet s'.particlePool j) ∧
    (ActiveListed s' → ActiveListed (updateExplodePhase env lr i p s')) := by
  have hmem : (poolGet s'.particlePool i).isActive = true := by
    rw [hslot]
    exact hp
  unfold updateExplodePhase
  by_cases hlr : 1 ≤ lr
  · rw [if_pos hlr]
    refine ⟨rfl, rfl, ?_, ?_, ?_⟩
    · rw [poolGet_withSlot_self s' i _ hl]
      exact hp
    · intro j hj
      exact poolGet_withSlot_other s' i j _ hj
    · exact activeListed_withSlot s' i _ hmem
  · rw [if_neg hlr]
    dsimp only
    refine ⟨rfl, rfl, ?_, ?_, ?_⟩
    · rw [poolGet_withSlot_self s' i _ hl]
      exact hp
    · intro j hj
      exact poolGet_withSlot_other s' i j _ hj
    · exact activeListed_withSlot s' i _ hmem

theorem updateFadePhase_spec (dt lr : ℚ) (i : ℕ) (p : Particle)
    (s' : FireworksSystem) (hl : i < s'.particlePool.length)
    (hslot : poolGet s'.particlePool i = p) :
    (updateFadePhase dt lr i p s').activeParticles = s'.activeParticles ∧
    (updateFadePhase dt lr i p s').isAnimating = s'.isAnimating ∧
    (∀ j, j ≠ i →
      poolGet (updateFadePhase dt lr i p s').particlePool j =
        poolGet s'.particlePool j) ∧
    (1 ≤ lr → (poolGet (updateFadePhase dt lr i p s').particlePool i).isActive
      = false) ∧
    (¬(1 ≤ lr) →
      (poolGet (updateFadePhase dt lr i p s').particlePool i).isActive
        = p.isActive) ∧
    (p.isActive = true → ActiveListed s' →
      ActiveListed (updateFadePhase dt lr i p s')) := by
  unfold updateFadePhase
  by_cases hlr : 1 ≤ lr
  · rw [if_pos hlr]
    refine ⟨rfl, rfl, ?_, ?_, fun hc => absurd hlr hc, ?_⟩
    · intro j hj
      exact poolGet_withSlot_other s' i j _ hj
    · intro _
      rw [poolGet_withSlot_self s' i _ hl]
    · intro hp
      exact activeListed_withSlot s' i _ (by rw [hslot]; exact hp)
  · rw [if_neg hlr]
    dsimp only
    refine ⟨rfl, rfl, ?_, fun hc => absurd hc hlr, ?_, ?_⟩
    · intro j hj
      exact poolGet_withSlot_other s' i j _ hj
    · intro _
      rw [poolGet_withSlot_self s' i _ hl]
    · intro hp
      exact activeListed_withSlot s' i _ (by rw [hslot]; exact hp)

theorem visitParticle_spec (env : Env) (dt : ℚ) (i : ℕ)
    (s : FireworksSystem) :
    (∃ ext, (visitParticle env dt i s).1.activeParticles =
      s.activeParticles ++ ext) ∧
    (visitParticle env dt i s).1.isAnimating = s.isAnimating ∧
    (ActiveListed s → ActiveListed (visitParticle env dt i s).1) := by
  unfold visitParticle
  by_cases h0 : (poolGet s.particlePool i).isActive = false
  · rw [if_pos h0]
    exact ⟨⟨[], (List.append_nil _).symm⟩, rfl, fun h => h⟩
  · rw [if_neg h0]
    have hp0 : (poolGet s.particlePool i).isActive = true := by
      cases hb : (poolGet s.particlePool i).isActive
      · exact absurd hb h0
      · rfl
    have hpL : (lifeAdvanced s i dt).isActive = true := hp0
    have hl : i < s.particlePool.length := poolGet_active_lt _ _ hp0
    have hl' : i < (withSlot s i (lifeAdvanced s i dt)).particlePool.length := by
      rw [withSlot_length]
      exact hl
    have hslot : poolGet (withSlot s i (lifeAdvanced s i dt)).particlePool i =
        lifeAdvanced s i dt :=
      poolGet_withSlot_self s i _ hl
    have hALs : ActiveListed s →
        ActiveListed (withSlot s i (lifeAdvanced s i dt)) :=
      activeListed_withSlot s i _ hp0
    dsimp only
    cases hph : (lifeAdvanced s i dt).phase with
    | launch =>
        obtain ⟨hext, hanim, _, hAL⟩ :=
          updateLaunchPhase_spec env dt
            (lifeFrac (lifeAdvanced s i dt).life (lifeAdvanced s i dt).maxLife)
            i (lifeAdvanced s i dt) (withSlot s i (lifeAdvanced s i dt))
            hl' hpL hslot
        exact ⟨hext, hanim, fun h => hAL (hALs h)⟩
    | explode =>
        obtain ⟨hact, hanim, _, _, hAL⟩ :=
          updateExplodePhase_spec env
            (lifeFrac (lifeAdvanced s i dt).life (lifeAdvanced s i dt).maxLife)
            i (lifeAdvanced s i dt) (withSlot s i (lifeAdvanced s i dt))
            hl' hpL hslot
        exact ⟨⟨[], by rw [hact, List.append_nil]; rfl⟩, hanim,
          fun h => hAL (hALs h)⟩
    | fade =>
        obtain ⟨hact, hanim, _, _, _, hAL⟩ :=
          updateFadePhase_spec dt
            (lifeFrac (lifeAdvanced s i dt).life (lifeAdvanced s i dt).maxLife)
            i (lifeAdvanced s i dt) (withSlot s i (lifeAdvanced s i dt))
            hl' hslot
        exact ⟨⟨[], by rw [hact, List.append_nil]; rfl⟩, hanim,
          fun h => hAL hpL (hALs h)⟩
    | inactive =>
        exact ⟨⟨[], (List.append_nil _).symm⟩, rfl, hALs⟩

theorem visitParticle_false_spec (env : Env) (dt : ℚ) (i : ℕ)
    (s : FireworksSystem)
    (h : (visitParticle env dt i s).2 = false) :
    (visitParticle env dt i s).1.activeParticles = s.activeParticles ∧
    (poolGet (visitParticle env dt i s).1.particlePool i).isActive = false ∧
    (∀ j, j ≠ i →
      poolGet (visitParticle env dt i s).1.particlePool j =
        poolGet s.particlePool j) := by
  unfold visitParticle at h ⊢
  by_cases h0 : (poolGet s.particlePool i).isActive = false
  · rw [if_pos h0] at h ⊢
    exact ⟨rfl, h0, fun j _ => rfl⟩
  · rw [if_neg h0] at h ⊢
    have hp0 : (poolGet s.particlePool i).isActive = true := by
      cases hb : (poolGet s.particlePool i).isActive
      · exact absurd hb h0
      · rfl
    have hpL : (lifeAdvanced s i dt).isActive = true := hp0
    have hl : i < s.particlePool.length := poolGet_active_lt _ _ hp0
    have hl' : i < (withSlot s i (lifeAdvanced s i dt)).particlePool.length := by
      rw [withSlot_length]
      exact hl
    have hslot : poolGet (withSlot s i (lifeAdvanced s i dt)).particlePool i =
        lifeAdvanced s i dt :=
      poolGet_withSlot_self s i _ hl
    dsimp only at h ⊢
    cases hph : (lifeAdvanced s i dt).phase with
    | launch =>
        rw [hph] at h
        dsimp only at h
        obtain ⟨_, _, hactive, _⟩ :=
          updateLaunchPhase_spec env dt
            (lifeFrac (lifeAdvanced s i dt).life (lifeAdvanced s i dt).maxLife)
            i (lifeAdvanced s i dt) (withSlot s i (lifeAdvanced s i dt))
            hl' hpL hslot
        rw [hactive] at h
        exact Bool.noConfusion h
    | explode =>
        rw [hph] at h
        dsimp only at h
        obtain ⟨_, _, hactive, _, _⟩ :=
          updateExplodePhase_spec env
            (lifeFrac (lifeAdvanced s i dt).life (lifeAdvanced s i dt).maxLife)
            i (lifeAdvanced s i dt) (withSlot s i (lifeAdvanced s i dt))
            hl' hpL hslot
        rw [hactive] at h
        exact Bool.noConfusion h
    | fade =>
        rw [hph] at h
        dsimp only at h ⊢
        obtain ⟨hact, _, hothers, hdone, hnot, _⟩ :=
          updateFadePhase_spec dt
            (lifeFrac (lifeAdvanced s i dt).life (lifeAdvanced s i dt).maxLife)
            i (lifeAdvanced s i dt) (withSlot s i (lifeAdvanced s i dt))
            hl' hslot
        by_cases hlr : 1 ≤ lifeFrac (lifeAdvanced s i dt).life
            (lifeAdvanced s i dt).maxLife
        · refine ⟨by rw [hact]; rfl, hdone hlr, ?_⟩
          intro j hj
          rw [hothers j hj]
          exact poolGet_withSlot_other s i j _ hj
        · rw [hnot hlr, hpL] at h
          exact Bool.noConfusion h
    | inactive =>
        rw [hph] at h
        dsimp only at h ⊢
        rw [hslot, hpL] at h
        exact Bool.noConfusion h

theorem updateLoop_cnt_le (env : Env) (dt : ℚ) :
    ∀ (idxs : List ℕ) (s : FireworksSystem) (cnt : ℕ),
      cnt ≤ (updateLoop env dt idxs s cnt).2 := by
  intro idxs
  induction idxs with
  | nil => intro s cnt; exact le_refl cnt
  | cons i rest ih =>
      intro s cnt
      unfold updateLoop
      dsimp only
      cases hv : (visitParticle env dt i s).2
      · simpa using ih (visitParticle env dt i s).1 cnt
      · calc cnt ≤ cnt + 1 := by omega
          _ ≤ _ := by simpa using ih (visitParticle env dt i s).1 (cnt + 1)

theorem updateLoop_spec (env : Env) (dt : ℚ) :
    ∀ (idxs : List ℕ) (s : FireworksSystem) (cnt : ℕ),
      (∃ ext, (updateLoop env dt idxs s cnt).1.activeParticles =
        s.activeParticles ++ ext) ∧
      (updateLoop env dt idxs s cnt).1.isAnimating = s.isAnimating ∧
      (ActiveListed s → ActiveListed (updateLoop env dt idxs s cnt).1) := by
  intro idxs
  induction idxs with
  | nil =>
      intro s cnt
      exact ⟨⟨[], (List.append_nil _).symm⟩, rfl, fun h => h⟩
  | cons i rest ih =>
      intro s cnt
      unfold updateLoop
      dsimp only
      obtain ⟨⟨ext1, hext1⟩, hanim1, hAL1⟩ := visitParticle_spec env dt i s
      obtain ⟨⟨ext2, hext2⟩, hanim2, hAL2⟩ :=
        ih (visitParticle env dt i s).1
          (if (visitParticle env dt i s).2 then cnt + 1 else cnt)
      refine ⟨⟨ext1 ++ ext2, ?_⟩, ?_, ?_⟩
      · rw [hext2, hext1, List.append_assoc]
      · rw [hanim2, hanim1]
      · intro h
        exact hAL2 (hAL1 h)

theorem updateLoop_stall (env : Env) (dt : ℚ) :
    ∀ (idxs : List ℕ) (s : FireworksSystem) (cnt : ℕ),
      (updateLoop env dt idxs s cnt).2 = cnt →
      (updateLoop env dt idxs s cnt).1.activeParticles =
        s.activeParticles ∧
      (∀ j, (poolGet (updateLoop env dt idxs s cnt).1.particlePool j).isActive
          = true →
        ((poolGet s.particlePool j).isActive = true ∧ j ∉ idxs)) := by
  intro idxs
  induction idxs with
  | nil =>
      intro s cnt _
      exact ⟨rfl, fun j hj => ⟨hj, by simp⟩⟩
  | cons i rest ih =>
      intro s cnt h
      unfold updateLoop at h ⊢
      dsimp only at h ⊢
      cases hv : (visitParticle env dt i s).2
      · rw [hv] at h
        simp only [Bool.false_eq_true, if_false] at h ⊢
        obtain ⟨hact, hslot, hothers⟩ := visitParticle_false_spec env dt i s hv
        obtain ⟨hact2, hrest⟩ := ih (visitParticle env dt i s).1 cnt h
        refine ⟨by rw [hact2, hact], ?_⟩
        intro j hj
        obtain ⟨hj1, hj2⟩ := hrest j hj
        by_cases hij : j = i
        · subst hij
          rw [hslot] at hj1
          exact Bool.noConfusion hj1
        · rw [hothers j hij] at hj1
          refine ⟨hj1, ?_⟩
          intro hmem
          rcases List.mem_cons.1 hmem with hc | hc
          · exact hij hc
          · exact hj2 hc
      · rw [hv] at h
        simp only [if_pos] at h
        have := updateLoop_cnt_le env dt rest (visitParticle env dt i s).1 (cnt + 1)
        omega

theorem updateLoop_all_inactive (env : Env) (dt : ℚ) (s : FireworksSystem)
    (h : ∀ i, (poolGet s.particlePool i).isActive = false) :
    ∀ (idxs : List ℕ) (cnt : ℕ), updateLoop env dt idxs s cnt = (s, cnt) := by
  intro idxs
  induction idxs with
  | nil => intro cnt; rfl
  | cons i rest ih =>
      intro cnt
      have hv : visitParticle env dt i s = (s, false) := by
        unfold visitParticle
        rw [if_pos (h i)]
      unfold updateLoop
      rw [hv]
      exact ih cnt

theorem countActive_eq_zero_iff (s : FireworksSystem) :
    countActive s = 0 ↔
      ∀ i, (poolGet s.particlePool i).isActive = false := by
  unfold countActive
  rw [List.countP_eq_zero]
  constructor
  · intro h i
    by_cases hl : i < s.particlePool.length
    · have hpg : poolGet s.particlePool i = s.particlePool.get ⟨i, hl⟩ := by
        unfold poolGet
        rw [List.getD, List.get?_eq_get hl]
        rfl
      have hmem : s.particlePool.get ⟨i, hl⟩ ∈ s.particlePool :=
        List.get_mem _ _ _
      have hnot := h _ hmem
      rw [hpg]
      cases hb : (s.particlePool.get ⟨i, hl⟩).isActive
      · rfl
      · exact absurd hb hnot
    · unfold poolGet
      rw [List.getD, List.get?_len_le (by omega)]
      rfl
  · intro h a hmem
    obtain ⟨n, hn⟩ := List.mem_iff_get.1 hmem
    have hpg : poolGet s.particlePool n = a := by
      unfold poolGet
      rw [List.getD, List.get?_eq_get n.isLt]
      simpa using hn
    intro hb
    have := h n
    rw [hpg, hb] at this
    exact Bool.noConfusion this

theorem launch_inv (env : Env) (pts : List TPoint) (s : FireworksSystem)
    (h1 : ActiveListed s) (h2 : IdleClean s) :
    ActiveListed (FireworksSystem.launch env pts s).1 ∧
    IdleClean (FireworksSystem.launch env pts s).1 := by
  unfold FireworksSystem.launch
  by_cases hA : s.isAnimating = true
  · rw [if_pos hA]
    exact ⟨h1, h2⟩
  · rw [if_neg hA]
    dsimp only
    have hfalse : s.isAnimating = false := by
      cases hb : s.isAnimating
      · rfl
      · exact absurd hb hA
    obtain ⟨hext, hanim, hALfin⟩ := launchLoop_spec env pts
      ({ s with targetPoints := pts, isAnimating := true, activeParticles := [] })
    constructor
    · apply hALfin
      intro j hj
      have hin := h2 hfalse j
      dsimp only at hj
      rw [hin] at hj
      exact Bool.noConfusion hj
    · intro hfin
      rw [hanim] at hfin
      dsimp only at hfin
      exact Bool.noConfusion hfin

theorem update_inv (env : Env) (dt : ℚ) (s : FireworksSystem)
    (h1 : ActiveListed s) (h2 : IdleClean s) :
    ActiveListed (FireworksSystem.update env dt s) ∧
    IdleClean (FireworksSystem.update env dt s) := by
  unfold FireworksSystem.update
  by_cases hg : (s.isAnimating = false ∨ s.activeParticles = [])
  · rw [if_pos hg]
    exact ⟨h1, h2⟩
  · rw [if_neg hg]
    dsimp only
    have hAt : s.isAnimating = true := by
      cases hb : s.isAnimating
      · exact absurd (Or.inl hb) hg
      · rfl
    by_cases hz : (updateLoop env dt s.activeParticles s 0).2 = 0
    · rw [if_pos hz]
      obtain ⟨hactEq, hstall⟩ := updateLoop_stall env dt s.activeParticles s 0 hz
      have hnone : ∀ j,
          (poolGet (updateLoop env dt s.activeParticles s 0).1.particlePool
            j).isActive = false := by
        intro j
        cases hb : (poolGet
            (updateLoop env dt s.activeParticles s 0).1.particlePool
            j).isActive
        · rfl
        · obtain ⟨hjs, hnotin⟩ := hstall j hb
          exact absurd (h1 j hjs) hnotin
      constructor
      · intro j hj
        dsimp only at hj
        rw [hnone j] at hj
        exact Bool.noConfusion hj
      · intro _ j
        dsimp only
        exact hnone j
    · rw [if_neg hz]
      obtain ⟨hext, hanim, hALfin⟩ := updateLoop_spec env dt s.activeParticles s 0
      refine ⟨hALfin h1, ?_⟩
      intro hfin
      rw [hanim, hAt] at hfin
      exact Bool.noConfusion hfin

theorem deactivateAll_spec :
    ∀ (l : List ℕ) (pool : List Particle) (j : ℕ),
      (poolGet (deactivateAll l pool) j).isActive = true →
      (poolGet pool j).isActive = true ∧ j ∉ l := by
  intro l
  induction l with
  | nil =>
      intro pool j h
      exact ⟨h, by simp⟩
  | cons i rest ih =>
      intro pool j h
      unfold deactivateAll at h
      obtain ⟨h1, h2⟩ := ih _ j h
      by_cases hij : j = i
      · subst hij
        exfalso
        by_cases hl : j < pool.length
        · rw [poolGet_set_self _ _ _ hl] at h1
          simp at h1
        · have hout : (poolGet (pool.set j
              ({ poolGet pool j with isActive := false, alpha := 0 })) j).isActive
              = false := by
            unfold poolGet
            rw [List.getD, List.get?_len_le (by simp; omega)]
            rfl
          rw [hout] at h1
          exact Bool.noConfusion h1
      · rw [poolGet_set_other _ _ _ _ hij] at h1
        refine ⟨h1, ?_⟩
        intro hmem
        rcases List.mem_cons.1 hmem with hc | hc
        · exact hij hc
        · exact h2 hc

theorem reset_inv (s : FireworksSystem) (h1 : ActiveListed s) :
    ActiveListed (FireworksSystem.reset s) ∧
    IdleClean (FireworksSystem.reset s) := by
  have hall : ∀ j,
      (poolGet (FireworksSystem.reset s).particlePool j).isActive = false := by
    intro j
    cases hb : (poolGet (FireworksSystem.reset s).particlePool j).isActive
    · rfl
    · exfalso
      obtain ⟨hjs, hnotin⟩ :=
        deactivateAll_spec s.activeParticles s.particlePool j hb
      exact hnotin (h1 j hjs)
  constructor
  · intro j hj
    rw [hall j] at hj
    exact Bool.noConfusion hj
  · intro _
    exact hall

theorem initSystem_inactive (n : ℕ) :
    ∀ i, (poolGet (initSystem n).particlePool i).isActive = false := by
  intro i
  show (poolGet (List.replicate n initParticle) i).isActive = false
  rw [poolGet_replicate]
  rfl

theorem runFw_inv (env : Env) (n : ℕ) (ops : List FwOp) :
    ActiveListed (runFw env n ops) ∧ IdleClean (runFw env n ops) := by
  unfold runFw
  have haux : ∀ (l : List FwOp) (s : FireworksSystem),
      ActiveListed s → IdleClean s →
      ActiveListed (l.foldl (applyFwOp env) s) ∧
      IdleClean (l.foldl (applyFwOp env) s) := by
    intro l
    induction l with
    | nil => intro s hs1 hs2; exact ⟨hs1, hs2⟩
    | cons op rest ih =>
        intro s hs1 hs2
        rw [List.foldl_cons]
        have hstep : ActiveListed (applyFwOp env s op) ∧
            IdleClean (applyFwOp env s op) := by
          cases op with
          | launch pts => exact launch_inv env pts s hs1 hs2
          | update dt => exact update_inv env dt s hs1 hs2
          | reset => exact reset_inv s hs1
        exact ih _ hstep.1 hstep.2
  refine haux ops (initSystem n) ?_ ?_
  · intro j hj
    rw [initSystem_inactive n j] at hj
    exact Bool.noConfusion hj
  · intro _
    exact initSystem_inactive n

/-! ## Claim C6: isRunning versus active particles -/

/-- Counterexample to C6 as stated: launching an empty target cloud leaves
the engine permanently in the running state with zero active particles —
isRunning stays true although no particle is active, and update never
returns it to idle (the empty active list short-circuits update). -/
theorem c6_counterexample :
    FireworksSystem.isRunning fwStuck = true ∧
    countActive fwStuck = 0 ∧
    FireworksSystem.update env0 1 fwStuck = fwStuck := by
  refine ⟨rfl, rfl, rfl⟩

/-- C6 (amended): isRunning returns the isAnimating flag; over every
operation sequence, an engine reporting not-running has no active particle
(it never goes idle while some particle is still active); and from any
running state with a nonempty active list whose active-particle count is
zero, the next update tick returns the engine to idle.  (A launch that
allocates no particles — the counterexample — keeps an empty active list
and is the one shape that stays running with zero active particles.) -/
theorem c6_running_reflects_active :
    (∀ s : FireworksSystem, FireworksSystem.isRunning s = s.isAnimating) ∧
    (∀ (env : Env) (n : ℕ) (ops : List FwOp),
        (runFw env n ops).isAnimating = false →
        countActive (runFw env n ops) = 0) ∧
    (∀ (env : Env) (dt : ℚ) (s : FireworksSystem),
        s.isAnimating = true → s.activeParticles ≠ [] → countActive s = 0 →
        (FireworksSystem.update env dt s).isAnimating = false) := by
  refine ⟨fun s => rfl, ?_, ?_⟩
  · intro env n ops hfin
    exact (countActive_eq_zero_iff _).2 ((runFw_inv env n ops).2 hfin)
  · intro env dt s hA hne hc
    have hall := (countActive_eq_zero_iff s).1 hc
    unfold FireworksSystem.update
    rw [if_neg (by simp [hA, hne])]
    dsimp only
    rw [updateLoop_all_inactive env dt s hall s.activeParticles 0]
    rfl

/-- Witness for C6: the empty run is idle with zero active particles, and
one update on a running state whose only listed slot is inactive brings
the flag down. -/
theorem c6_running_reflects_active_witness :
    countActive (runFw env0 1 []) = 0 ∧
    (FireworksSystem.update env0 1 fwZeroActive).isAnimating = false := by
  constructor
  · exact c6_running_reflects_active.2.1 env0 1 [] rfl
  · exact c6_running_reflects_active.2.2 env0 1 fwZeroActive rfl
      (by simp [fwZeroActive]) rfl

end CNY
